import Mathlib

/-!
Verification development for the OpenWrt network/firewall integration engine of
`luci-app-podman` (file `htdocs/luci-static/resources/podman/openwrt-network.js`)
and the ULA deriver of `podman/auto-update.js`.

The UCI configuration store is modelled as three ordered lists of sections
(domains `network`, `firewall`, `dhcp`).  A section has a section id (a named
id for sections created with an explicit name, or a generated id for anonymous
sections created by `uci.add(config, type)`), a section type, and an ordered
association list of options.  Option values are either a scalar string or a
list of strings, exactly the two shapes LuCI's `uci.get` can return.

In the real store a section id is a unique key; reads (`uci.get`) resolve an
id to its section, and writes (`uci.set`, `uci.unset`, `uci.remove`) address a
section by id.  The model keeps the file order of sections in the list,
resolves reads by the first section carrying the id, and lets writes update
every section carrying the id (on the duplicate-free stores produced by uci
the two coincide, and reads and writes stay consistent with each other even
on degenerate stores).  Generated ids are modelled by a counter that is
strictly larger than every generated id already present, mirroring uci's
guarantee that `uci.add` returns a fresh section id.

The asynchronous promise chains of the source are flattened into sequential
state transformations together with an event log recording the externally
visible commit actions (`uci.save`, `uci.apply`, network cache flush, dnsmasq
service restart), in the order the source awaits them.
-/

/-- A UCI section id: `named s` for sections addressed by an explicit name
(`uci.add(config, type, name)` / `uci.get(config, name)`), `anon n` for
generated ids returned by `uci.add(config, type)`. -/
inductive Sid where
  | named (s : String)
  | anon (n : Nat)
deriving DecidableEq, Repr

/-- A UCI option value: LuCI's `uci.get(config, sid, opt)` returns either a
scalar string or an array of strings. -/
inductive UciVal where
  | str (s : String)
  | list (l : List String)
deriving DecidableEq, Repr

/-- A UCI section: id, section type, ordered option list. -/
structure UciSection where
  id : Sid
  stype : String
  options : List (String × UciVal)
deriving DecidableEq, Repr

/-- A UCI config domain (`network`, `firewall` or `dhcp`): the sections in
file order. -/
abbrev UciDomain := List UciSection

/-- The three config domains the integration engine touches. -/
structure Store where
  network : UciDomain
  firewall : UciDomain
  dhcp : UciDomain
deriving DecidableEq, Repr

/-- Externally visible commit actions, in the order the source awaits them. -/
inductive Event where
  | save
  | applyTimeout (t : Nat)
  | flushCache
  | restartDnsmasq
deriving DecidableEq, Repr

/-- Resolve a section id to its section (first section carrying the id, which
is the unique one on the stores uci produces). -/
def lookupSection : UciDomain → Sid → Option UciSection
  | [], _ => none
  | sec :: rest, i => if sec.id = i then some sec else lookupSection rest i

/-- First binding of an option key in a section's option list. -/
def getOptVal : List (String × UciVal) → String → Option UciVal
  | [], _ => none
  | p :: rest, k => if p.1 = k then some p.2 else getOptVal rest k

/-- `uci.get(config, sid, opt)`: read an option of the section `i`. -/
def uciGet (d : UciDomain) (i : Sid) (k : String) : Option UciVal :=
  (lookupSection d i).bind (fun sec => getOptVal sec.options k)

/-- Set a key in an option list: update the first binding in place, or append
a new binding at the end. -/
def setOptList (opts : List (String × UciVal)) (k : String) (v : UciVal) :
    List (String × UciVal) :=
  match opts with
  | [] => [(k, v)]
  | p :: rest => if p.1 = k then (k, v) :: rest else p :: setOptList rest k v

/-- Update one section for `uciSet`. -/
def updOpt (i : Sid) (k : String) (v : UciVal) (sec : UciSection) : UciSection :=
  if sec.id = i then { sec with options := setOptList sec.options k v } else sec

/-- `uci.set(config, sid, opt, val)`. -/
def uciSet (d : UciDomain) (i : Sid) (k : String) (v : UciVal) : UciDomain :=
  d.map (updOpt i k v)

/-- Update one section for `uciUnset`. -/
def unsetOpt (i : Sid) (k : String) (sec : UciSection) : UciSection :=
  if sec.id = i then { sec with options := sec.options.filter (fun p => p.1 ≠ k) }
  else sec

/-- `uci.unset(config, sid, opt)`: delete an option. -/
def uciUnset (d : UciDomain) (i : Sid) (k : String) : UciDomain :=
  d.map (unsetOpt i k)

/-- `uci.remove(config, sid)`: delete the section with id `i`. -/
def uciRemove (d : UciDomain) (i : Sid) : UciDomain :=
  d.filter (fun sec => sec.id ≠ i)

/-- `uci.add(config, type, name)`: append a named section with no options. -/
def uciAddNamed (d : UciDomain) (t : String) (name : String) : UciDomain :=
  d ++ [⟨Sid.named name, t, []⟩]

/-- A generated-id bound: strictly larger than every generated id in the
domain, so `Sid.anon (freshAnon d)` is fresh (uci's `uci.add(config, type)`
always returns a fresh section id). -/
def freshAnon (d : UciDomain) : Nat :=
  d.foldr (fun sec acc => match sec.id with
    | Sid.anon n => max (n + 1) acc
    | Sid.named _ => acc) 0

/-- `uci.add(config, type)`: append an anonymous section, returning its
generated id. -/
def uciAddAnon (d : UciDomain) (t : String) : UciDomain × Sid :=
  let i := Sid.anon (freshAnon d)
  (d ++ [⟨i, t, []⟩], i)

/-- `uci.sections(config, type)`: the sections of one type, in file order. -/
def sectionsOf (d : UciDomain) (t : String) : UciDomain :=
  d.filter (fun sec => sec.stype = t)

/-- JavaScript truthiness of an option value: `undefined`/`""` are falsy,
arrays are truthy. -/
def uciValTruthy : Option UciVal → Bool
  | none => false
  | some (UciVal.str s) => s ≠ ""
  | some (UciVal.list _) => true

/-- Coercion of an option value to a string key (JavaScript string coercion
of the value when it is used as a section id). -/
def uciValToKey : UciVal → String
  | UciVal.str s => s
  | UciVal.list l => String.intercalate "," l

/-- The source's array-or-scalar normalisation of a list-typed option:
`Array.isArray(v) ? v : (v ? [v] : [])`. -/
def normList : Option UciVal → List String
  | none => []
  | some (UciVal.str s) => if s = "" then [] else [s]
  | some (UciVal.list l) => l

/-- The source's `x || dflt` defaulting on option strings (absent is modelled
as `""`, which is exactly the other falsy string). -/
def jsOrDefault (s dflt : String) : String :=
  if s = "" then dflt else s

/-- `needsBridge(driver)` from the source: `!driver || driver === 'bridge'`. -/
def needsBridge (driver : String) : Bool :=
  driver = "" || driver = "bridge"

/-- `cidrToPrefix` from the source: `parts.length === 2 ? parseInt(parts[1]) : 24`.
`parseInt` is modelled as the value of the leading decimal digits (the only
inputs the engine feeds it are decimal prefix lengths; `NaN` is collapsed to
`0`). -/
def cidrToPrefixLen (cidr : String) : Nat :=
  match cidr.splitOn "/" with
  | [_, p] => (String.mk (p.data.takeWhile Char.isDigit)).toNat?.getD 0
  | _ => 24

/-- Network Device Layer collaborator, modelled from the spec:
`prefixToMask(prefixLen) -> dotted netmask string` (the LuCI `network` module
is outside this repository).  No claim depends on the mask's digits, only on
the function being a fixed pure function. -/
def prefixToMask (plen : Nat) : String :=
  let oct := fun (i : Nat) =>
    let b := min 8 (plen - min plen (8 * i))
    256 - 2 ^ (8 - b)
  toString (oct 0) ++ "." ++ toString (oct 1) ++ "." ++
    toString (oct 2) ++ "." ++ toString (oct 3)

/-- The options object accepted by `createIntegration`/`repairIntegration`.
Absent string options are modelled as `""` (both are falsy in the source's
guards). -/
structure CreateOptions where
  driver : String
  bridgeName : String
  parent : String
  subnet : String
  gateway : String
  ipv6subnet : String
  ipv6gateway : String
  zoneName : String
deriving DecidableEq, Repr

/-- Bridge-device step of `createIntegration` (source lines 111-126): create
the bridge device section only if no section with that name exists. -/
def createDevicePhase (deviceName ipv6subnet : String) (net : UciDomain) :
    UciDomain :=
  match lookupSection net (Sid.named deviceName) with
  | some _ => net
  | none =>
    let n1 := uciAddNamed net "device" deviceName
    let n2 := uciSet n1 (Sid.named deviceName) "type" (UciVal.str "bridge")
    let n3 := uciSet n2 (Sid.named deviceName) "name" (UciVal.str deviceName)
    let n4 := uciSet n3 (Sid.named deviceName) "bridge_empty" (UciVal.str "1")
    let n5 := uciSet n4 (Sid.named deviceName) "ipv6" (UciVal.str "0")
    if ipv6subnet ≠ "" then
      uciSet (uciSet n5 (Sid.named deviceName) "ipv6" (UciVal.str "1"))
        (Sid.named deviceName) "ip6assign" (UciVal.str "64")
    else n5

/-- Interface step of `createIntegration` (source lines 128-141): create the
interface section only if no section with the network's name exists. -/
def createIfacePhase (networkName deviceName gateway netmask ipv6subnet
    ipv6gateway : String) (net : UciDomain) : UciDomain :=
  match lookupSection net (Sid.named networkName) with
  | some _ => net
  | none =>
    let n1 := uciAddNamed net "interface" networkName
    let n2 := uciSet n1 (Sid.named networkName) "proto" (UciVal.str "static")
    let n3 := uciSet n2 (Sid.named networkName) "device" (UciVal.str deviceName)
    let n4 := uciSet n3 (Sid.named networkName) "ipaddr" (UciVal.str gateway)
    let n5 := uciSet n4 (Sid.named networkName) "netmask" (UciVal.str netmask)
    if ipv6subnet ≠ "" && ipv6gateway ≠ "" then
      uciSet n5 (Sid.named networkName) "ip6addr"
        (UciVal.str (ipv6gateway ++ "/64"))
    else n5

/-- Find the first firewall zone whose `name` option equals `zoneName`
(source lines 144-146). -/
def findZoneByName (zoneName : String) (fw : UciDomain) : Option UciSection :=
  (sectionsOf fw "zone").find?
    (fun z => uciGet fw z.id "name" = some (UciVal.str zoneName))

/-- Zone step of `createIntegration` (source lines 143-172): create the zone
with safe defaults and this network as sole member, or append the network to
the existing zone's list only when absent. -/
def ensureZoneMembership (zoneName networkName : String) (fw : UciDomain) :
    UciDomain :=
  match findZoneByName zoneName fw with
  | none =>
    let a := uciAddAnon fw "zone"
    let f1 := uciSet a.1 a.2 "name" (UciVal.str zoneName)
    let f2 := uciSet f1 a.2 "input" (UciVal.str "DROP")
    let f3 := uciSet f2 a.2 "output" (UciVal.str "ACCEPT")
    let f4 := uciSet f3 a.2 "forward" (UciVal.str "REJECT")
    uciSet f4 a.2 "network" (UciVal.list [networkName])
  | some z =>
    let cur := normList (uciGet fw z.id "network")
    if networkName ∈ cur then fw
    else uciSet fw z.id "network" (UciVal.list (cur ++ [networkName]))

/-- Find the first firewall rule whose `name` option equals `ruleName`
(source lines 176-178 and 261-263). -/
def findRuleByName (ruleName : String) (fw : UciDomain) : Option UciSection :=
  (sectionsOf fw "rule").find?
    (fun r => uciGet fw r.id "name" = some (UciVal.str ruleName))

/-- DNS-rule step of `createIntegration` (source lines 174-186): create the
`Allow-<zone>-DNS` rule only if no rule with that name exists. -/
def ensureDnsRule (zoneName : String) (fw : UciDomain) : UciDomain :=
  let ruleName := "Allow-" ++ zoneName ++ "-DNS"
  match findRuleByName ruleName fw with
  | some _ => fw
  | none =>
    let a := uciAddAnon fw "rule"
    let f1 := uciSet a.1 a.2 "name" (UciVal.str ruleName)
    let f2 := uciSet f1 a.2 "src" (UciVal.str zoneName)
    let f3 := uciSet f2 a.2 "dest_port" (UciVal.str "53")
    uciSet f3 a.2 "target" (UciVal.str "ACCEPT")

/-- `_configureDnsmasq(bridgeName, enable)` (source lines 674-731): toggle the
bridge's presence in the first dnsmasq section's `notinterface` list,
compacting the option away when the list empties.  When no dnsmasq section is
configured the whole step is skipped (no commit, no restart).  Note the
source's commit order in this helper: `uci.apply(90)` is awaited before
`uci.save()`. -/
def configureDnsmasq (bridgeName : String) (enable : Bool) (dhcp : UciDomain) :
    UciDomain × List Event :=
  match sectionsOf dhcp "dnsmasq" with
  | [] => (dhcp, [])
  | mainSec :: _ =>
    let cur := normList (uciGet dhcp mainSec.id "notinterface")
    let dhcp2 :=
      if enable then
        if bridgeName ∈ cur then dhcp
        else uciSet dhcp mainSec.id "notinterface"
          (UciVal.list (cur ++ [bridgeName]))
      else
        let filtered := cur.filter (fun x => x ≠ bridgeName)
        if filtered ≠ [] then
          uciSet dhcp mainSec.id "notinterface" (UciVal.list filtered)
        else uciUnset dhcp mainSec.id "notinterface"
    (dhcp2, [Event.applyTimeout 90, Event.save, Event.restartDnsmasq])

/-- `createIntegration(networkName, options)` (source lines 98-199), flattened
into a store transformation plus the commit event log. -/
def createIntegration (networkName : String) (o : CreateOptions) (s : Store) :
    Store × List Event :=
  let driver := jsOrDefault o.driver "bridge"
  let deviceName := if needsBridge driver then o.bridgeName else o.parent
  let netmask := prefixToMask (cidrToPrefixLen o.subnet)
  let requestedZone := jsOrDefault o.zoneName "_create_new_"
  let zoneName :=
    if requestedZone = "_create_new_" then "podman_" ++ networkName
    else requestedZone
  let net1 :=
    if needsBridge driver then createDevicePhase deviceName o.ipv6subnet s.network
    else s.network
  let net2 := createIfacePhase networkName deviceName o.gateway netmask
    o.ipv6subnet o.ipv6gateway net1
  let fw1 := ensureZoneMembership zoneName networkName s.firewall
  let fw2 := ensureDnsRule zoneName fw1
  let base := [Event.save, Event.applyTimeout 90, Event.flushCache]
  if needsBridge driver then
    let r := configureDnsmasq deviceName true s.dhcp
    (⟨net2, fw2, r.1⟩, base ++ r.2)
  else (⟨net2, fw2, s.dhcp⟩, base)

/-- Zone-membership scan of `removeIntegration` (source lines 219-240): the
first zone whose normalised `network` list contains the network name. -/
def findMemberZone (networkName : String) (fw : UciDomain) : Option UciSection :=
  (sectionsOf fw "zone").find?
    (fun z => networkName ∈ normList (uciGet fw z.id "network"))

/-- The zone's `name` option as used by `removeIntegration`
(`zoneName && zoneName.startsWith('podman')`); a non-scalar `name` is
collapsed to the falsy `""`. -/
def zoneNameStr (fw : UciDomain) (i : Sid) : String :=
  match uciGet fw i "name" with
  | some (UciVal.str s) => s
  | _ => ""

/-- Zone step of `removeIntegration` (source lines 219-271): drop the network
from its zone's member list; when the list empties and the zone name starts
with `podman`, delete the zone and its `Allow-<zone>-DNS` rule. -/
def removeZonePhase (networkName : String) (fw : UciDomain) : UciDomain :=
  match findMemberZone networkName fw with
  | none => fw
  | some z =>
    let cur := normList (uciGet fw z.id "network")
    let filtered := cur.filter (fun n => n ≠ networkName)
    if filtered ≠ [] then uciSet fw z.id "network" (UciVal.list filtered)
    else
      let zn := zoneNameStr fw z.id
      if zn ≠ "" && zn.startsWith "podman" then
        let fw1 := uciRemove fw z.id
        let ruleName := "Allow-" ++ zn ++ "-DNS"
        match findRuleByName ruleName fw1 with
        | some r => uciRemove fw1 r.id
        | none => fw1
      else uciSet fw z.id "network" (UciVal.list filtered)

/-- Interface step of `removeIntegration` (source lines 273-277). -/
def removeIfacePhase (networkName : String) (net : UciDomain) : UciDomain :=
  if (lookupSection net (Sid.named networkName)).isSome then
    uciRemove net (Sid.named networkName)
  else net

/-- Reference count of `removeIntegration` (source lines 282-287): the other
interface sections whose `device` option is exactly the device name. -/
def otherIfaceCount (networkName deviceName : String) (net : UciDomain) : Nat :=
  ((sectionsOf net "interface").filter (fun sec =>
    uciGet net sec.id "device" = some (UciVal.str deviceName) &&
      sec.id ≠ Sid.named networkName)).length

/-- Device step of `removeIntegration` (source lines 279-297): for bridge
drivers, delete the bridge device section only when no other interface still
references it; returns the store's network domain and the
`shouldRemoveBridge` flag the source threads to the dnsmasq step. -/
def removeDevicePhase (networkName deviceName driver : String)
    (net : UciDomain) : UciDomain × Bool :=
  if needsBridge driver then
    if otherIfaceCount networkName deviceName net = 0 then
      if (lookupSection net (Sid.named deviceName)).isSome then
        (uciRemove net (Sid.named deviceName), true)
      else (net, true)
    else (net, false)
  else (net, false)

/-- Whether the device step actually deleted a bridge device section (the
section existed and the reference count was zero).  The source does not track
this; its dnsmasq step keys on `shouldRemoveBridge` alone. -/
def deviceWasDeleted (networkName deviceName driver : String)
    (net : UciDomain) : Bool :=
  needsBridge driver && otherIfaceCount networkName deviceName net = 0 &&
    (lookupSection net (Sid.named deviceName)).isSome

/-- `removeIntegration(networkName, deviceName, driver)` (source lines
213-310), flattened into a store transformation plus the commit event log. -/
def removeIntegration (networkName deviceName driver0 : String) (s : Store) :
    Store × List Event :=
  let driver := jsOrDefault driver0 "bridge"
  let fw1 := removeZonePhase networkName s.firewall
  let net1 := removeIfacePhase networkName s.network
  let dp := removeDevicePhase networkName deviceName driver net1
  let base := [Event.save, Event.applyTimeout 90, Event.flushCache]
  if needsBridge driver && dp.2 then
    let r := configureDnsmasq deviceName false s.dhcp
    (⟨dp.1, fw1, r.1⟩, base ++ r.2)
  else (⟨dp.1, fw1, s.dhcp⟩, base)

/-- The `details` object of `isIntegrationComplete`. -/
structure IntDetails where
  hasInterface : Bool
  hasDevice : Bool
  hasDnsmasqExclusion : Bool
  driver : String
deriving DecidableEq, Repr

/-- The result of `isIntegrationComplete`. -/
structure IntStatus where
  complete : Bool
  missing : List String
  details : IntDetails
deriving DecidableEq, Repr

/-- The `details` object as initialised before any store read. -/
def initDetails (driver : String) : IntDetails :=
  ⟨false, false, false, driver⟩

/-- Body of `isIntegrationComplete(networkName, driver)` (source lines
337-421) on a successfully loaded store. -/
def isIntegrationCompleteOk (networkName driver0 : String) (s : Store) :
    IntStatus :=
  let driver := jsOrDefault driver0 "bridge"
  let d0 := initDetails driver
  let ifaceOk := (lookupSection s.network (Sid.named networkName)).isSome
  let m1 : List String := if ifaceOk then [] else ["interface"]
  let d1 := { d0 with hasInterface := ifaceOk }
  let devOpt := uciGet s.network (Sid.named networkName) "device"
  if uciValTruthy devOpt then
    let key := uciValToKey (devOpt.getD (UciVal.str ""))
    if needsBridge driver then
      match lookupSection s.network (Sid.named key) with
      | none => ⟨false, m1 ++ ["device"], d1⟩
      | some _ =>
        if uciGet s.network (Sid.named key) "type" ≠ some (UciVal.str "bridge")
        then ⟨false, m1 ++ ["device"], d1⟩
        else
          let d2 := { d1 with hasDevice := true }
          match sectionsOf s.dhcp "dnsmasq" with
          | [] => ⟨m1.isEmpty, m1, { d2 with hasDnsmasqExclusion := true }⟩
          | mainSec :: _ =>
            let notin := uciGet s.dhcp mainSec.id "notinterface"
            let isExcluded : Bool :=
              match notin with
              | some (UciVal.list l) => decide (key ∈ l)
              | some (UciVal.str ss) => ss ≠ "" && ss = key
              | none => false
            if isExcluded then
              ⟨m1.isEmpty, m1, { d2 with hasDnsmasqExclusion := true }⟩
            else ⟨false, m1 ++ ["dnsmasq"], d2⟩
    else
      ⟨m1.isEmpty, m1, { d1 with hasDevice := true, hasDnsmasqExclusion := true }⟩
  else ⟨false, m1 ++ ["device"], d1⟩

/-- `isIntegrationComplete(networkName, driver)` over the outcome of its
config-store loads: a failing load is caught and reported (source lines
414-420), every other outcome produces the computed status. -/
def isIntegrationComplete (networkName driver0 : String)
    (loads : Except String Store) : IntStatus :=
  match loads with
  | Except.error _ =>
    ⟨false, ["unknown"], initDetails (jsOrDefault driver0 "bridge")⟩
  | Except.ok s => isIntegrationCompleteOk networkName driver0 s

/-- `hasIntegration(networkName)` (source lines 318-325) over the outcome of
its `uci.load('network')`. -/
def hasIntegration (networkName : String)
    (loads : Except String UciDomain) : Bool :=
  match loads with
  | Except.error _ => false
  | Except.ok net => (lookupSection net (Sid.named networkName)).isSome

/-- The record returned by `getIntegration`. -/
structure IntegrationInfo where
  networkName : String
  deviceName : Option UciVal
  gateway : Option UciVal
  netmask : Option UciVal
  proto : Option UciVal
deriving DecidableEq, Repr

/-- `getIntegration(networkName)` (source lines 429-446) over the outcome of
its `uci.load('network')`. -/
def getIntegration (networkName : String)
    (loads : Except String UciDomain) : Option IntegrationInfo :=
  match loads with
  | Except.error _ => none
  | Except.ok net =>
    if (lookupSection net (Sid.named networkName)).isSome then
      some ⟨networkName,
        uciGet net (Sid.named networkName) "device",
        uciGet net (Sid.named networkName) "ipaddr",
        uciGet net (Sid.named networkName) "netmask",
        uciGet net (Sid.named networkName) "proto"⟩
    else none

/-- The result of `repairIntegration`: final store, commit events, and the
`{added, skipped}` report. -/
structure RepairResult where
  store : Store
  events : List Event
  added : List String
  skipped : List String
deriving DecidableEq, Repr

/-- `repairIntegration(networkName, options)` (source lines 580-660): status
check first; if complete, a no-op; otherwise re-create only the missing
device/interface (never touching firewall) and re-add the dnsmasq exclusion
when it was missing. -/
def repairIntegration (networkName : String) (o : CreateOptions) (s : Store) :
    RepairResult :=
  let driver := jsOrDefault o.driver "bridge"
  let deviceName := if needsBridge driver then o.bridgeName else o.parent
  let status := isIntegrationCompleteOk networkName driver s
  if status.complete then ⟨s, [], [], ["complete"]⟩
  else
    let devStep :=
      if !status.details.hasDevice && needsBridge driver then
        match lookupSection s.network (Sid.named deviceName) with
        | none =>
          let n1 := uciAddNamed s.network "device" deviceName
          let n2 := uciSet n1 (Sid.named deviceName) "type" (UciVal.str "bridge")
          let n3 := uciSet n2 (Sid.named deviceName) "name"
            (UciVal.str deviceName)
          let n4 := uciSet n3 (Sid.named deviceName) "bridge_empty"
            (UciVal.str "1")
          (uciSet n4 (Sid.named deviceName) "ipv6" (UciVal.str "0"),
            ["device"], ([] : List String))
        | some _ => (s.network, [], ["device"])
      else (s.network, [], ["device"])
    let ifaceStep :=
      if !status.details.hasInterface then
        match lookupSection devStep.1 (Sid.named networkName) with
        | none =>
          let netmask := prefixToMask (cidrToPrefixLen o.subnet)
          let n1 := uciAddNamed devStep.1 "interface" networkName
          let n2 := uciSet n1 (Sid.named networkName) "proto"
            (UciVal.str "static")
          let n3 := uciSet n2 (Sid.named networkName) "device"
            (UciVal.str deviceName)
          let n4 := uciSet n3 (Sid.named networkName) "ipaddr"
            (UciVal.str o.gateway)
          (uciSet n4 (Sid.named networkName) "netmask" (UciVal.str netmask),
            ["interface"], ([] : List String))
        | some _ => (devStep.1, [], ["interface"])
      else (devStep.1, [], ["interface"])
    let base := [Event.save, Event.applyTimeout 90, Event.flushCache]
    if !status.details.hasDnsmasqExclusion && needsBridge driver then
      let r := configureDnsmasq deviceName true s.dhcp
      ⟨⟨ifaceStep.1, s.firewall, r.1⟩, base ++ r.2,
        devStep.2.1 ++ ifaceStep.2.1 ++ ["dnsmasq"],
        devStep.2.2 ++ ifaceStep.2.2⟩
    else
      ⟨⟨ifaceStep.1, s.firewall, s.dhcp⟩, base,
        devStep.2.1 ++ ifaceStep.2.1,
        devStep.2.2 ++ ifaceStep.2.2 ++ ["dnsmasq"]⟩

/-- JavaScript `String.prototype.split(sep)` for a one-character separator,
on character lists. -/
def splitOnChar (sep : Char) : List Char → List (List Char)
  | [] => [[]]
  | c :: rest =>
    let r := splitOnChar sep rest
    if c = sep then [] :: r
    else
      match r with
      | [] => [[c]]
      | h :: t => (c :: h) :: t

/-- The part of a string before its first `"::"` occurrence (the whole string
when there is none): models `s.split('::')[0]`, the only part of that split
the ULA deriver reads. -/
def takeBeforeColonColon : List Char → List Char
  | [] => []
  | [c] => [c]
  | c1 :: c2 :: rest =>
    if c1 = ':' ∧ c2 = ':' then []
    else c1 :: takeBeforeColonColon (c2 :: rest)

/-- JavaScript `Number(s)` on the non-negative integer strings the ULA
deriver feeds it (`""` is `0`, as in JavaScript; the `NaN` outcomes of
non-numeric octets are collapsed to `0`). -/
def jsNumberNat (s : String) : Nat :=
  if s.data ≠ [] && s.data.all Char.isDigit then
    s.data.foldl (fun a c => 10 * a + (c.toNat - 48)) 0
  else 0

/-- Least-significant-first base-16 digit characters of `n`, with `fuel`
bounding the recursion depth (any `fuel ≥ n` is exact). -/
def hexDigitsAux : Nat → Nat → List Char
  | _, 0 => []
  | 0, _ + 1 => []
  | fuel + 1, n + 1 =>
    Nat.digitChar ((n + 1) % 16) :: hexDigitsAux fuel ((n + 1) / 16)

/-- JavaScript `(n).toString(16)` on naturals: most-significant-first base-16
digits in lowercase, `"0"` for zero. -/
def jsHexString (n : Nat) : String :=
  if n = 0 then "0" else String.mk ((hexDigitsAux n n).reverse)

/-- JavaScript `s.padStart(4, '0')`. -/
def padStart4 (s : String) : String :=
  String.mk (List.replicate (4 - s.length) '0') ++ s

/-- The result of `deriveUlaFromIpv4`. -/
structure UlaResult where
  ipv6subnet : String
  ipv6gateway : String
deriving DecidableEq, Repr

/-- `deriveUlaFromIpv4(ipv4, ula_prefix)` from `podman/auto-update.js`
(lines 318-340): pack IPv4 octets 3-4 into a 4-hex-digit subnet id, splice it
after the first three hextets of the ULA prefix, and return the `/64` subnet
with a gateway at host offset 1.  Out-of-range indexing of a malformed IPv4
(JavaScript `undefined`/`NaN`) is collapsed to octet value `0`. -/
def deriveUlaFromIpv4 (ipv4 ulaPfx : String) : UlaResult :=
  let ipv4Address := (splitOnChar '/' ipv4.data).headD []
  let octets := (splitOnChar '.' ipv4Address).map
    (fun o => jsNumberNat (String.mk o))
  let subnetId := (octets.getD 2 0) <<< 8 ||| octets.getD 3 0
  let subnetIdHex := padStart4 (jsHexString subnetId)
  let ulaAddress := (splitOnChar '/' ulaPfx.data).headD []
  let part0 := takeBeforeColonColon ulaAddress
  let hextets0 := splitOnChar ':' part0
  let hextets1 := if hextets0 = [[]] then ([] : List (List Char)) else hextets0
  let hextets2 := hextets1 ++ List.replicate (3 - hextets1.length) ['0']
  let joined := List.intercalate [':'] (hextets2.take 3)
  let addr := String.mk joined ++ ":" ++ subnetIdHex ++ "::"
  ⟨addr ++ "/64", addr ++ "1"⟩

/-- The at-most-once zone-membership invariant: every firewall zone's
normalised `network` member list is duplicate-free (each network name occurs
at most once). -/
def ZoneInv (fw : UciDomain) : Prop :=
  ∀ z ∈ sectionsOf fw "zone", (normList (uciGet fw z.id "network")).Nodup

/-- Value of a lowercase hexadecimal digit character (left inverse of
`Nat.digitChar` on digits below 16), used to state that the packed subnet id
can be read back out of the hex string. -/
def hexCharVal (c : Char) : Nat :=
  if c.isDigit then c.toNat - 48 else c.toNat - 87

/-- Value of a most-significant-first hex digit string. -/
def parseHexChars (l : List Char) : Nat :=
  l.foldl (fun a c => 16 * a + hexCharVal c) 0

theorem lookupSection_eq_none {d : UciDomain} {i : Sid} :
    lookupSection d i = none ↔ ∀ sec ∈ d, sec.id ≠ i := by
  induction d with
  | nil => simp [lookupSection]
  | cons sec rest ih =>
    by_cases h : sec.id = i <;> simp [lookupSection, h, ih]

theorem lookupSection_id {d : UciDomain} {i : Sid} {sec : UciSection}
    (h : lookupSection d i = some sec) : sec.id = i := by
  induction d with
  | nil => simp [lookupSection] at h
  | cons s rest ih =>
    by_cases hs : s.id = i
    · simp [lookupSection, hs] at h
      rw [h] at hs; exact hs
    · rw [lookupSection, if_neg hs] at h
      exact ih h

theorem lookupSection_isSome_of_mem {d : UciDomain} {sec : UciSection}
    (h : sec ∈ d) : (lookupSection d sec.id).isSome := by
  cases hl : lookupSection d sec.id with
  | some _ => rfl
  | none => exact absurd rfl (lookupSection_eq_none.mp hl sec h)

theorem lookupSection_append (d d2 : UciDomain) (i : Sid) :
    lookupSection (d ++ d2) i = (lookupSection d i).or (lookupSection d2 i) := by
  induction d with
  | nil => simp [lookupSection]
  | cons sec rest ih =>
    by_cases h : sec.id = i <;> simp [lookupSection, h, ih]

theorem lookupSection_append_left {d : UciDomain} {i : Sid}
    (h : (lookupSection d i).isSome) (d2 : UciDomain) :
    lookupSection (d ++ d2) i = lookupSection d i := by
  rw [lookupSection_append]
  cases hl : lookupSection d i with
  | some _ => rfl
  | none => rw [hl] at h; simp at h

theorem updOpt_preserves_id (i : Sid) (k : String) (v : UciVal)
    (sec : UciSection) : (updOpt i k v sec).id = sec.id := by
  unfold updOpt; split <;> rfl

theorem updOpt_preserves_stype (i : Sid) (k : String) (v : UciVal)
    (sec : UciSection) : (updOpt i k v sec).stype = sec.stype := by
  unfold updOpt; split <;> rfl

theorem updOpt_of_ne {i : Sid} {sec : UciSection} (h : sec.id ≠ i)
    (k : String) (v : UciVal) : updOpt i k v sec = sec := by
  unfold updOpt; rw [if_neg h]

theorem lookupSection_uciSet (d : UciDomain) (i : Sid) (k : String)
    (v : UciVal) (j : Sid) :
    lookupSection (uciSet d i k v) j =
      Option.map (updOpt i k v) (lookupSection d j) := by
  induction d with
  | nil => simp [lookupSection, uciSet]
  | cons sec rest ih =>
    rw [uciSet, List.map_cons]
    by_cases h : sec.id = j
    · rw [lookupSection, if_pos (by rw [updOpt_preserves_id]; exact h),
        lookupSection, if_pos h, Option.map_some']
    · rw [lookupSection, if_neg (by rw [updOpt_preserves_id]; exact h),
        lookupSection, if_neg h]
      exact ih

theorem isSome_lookupSection_uciSet (d : UciDomain) (i : Sid) (k : String)
    (v : UciVal) (j : Sid) :
    (lookupSection (uciSet d i k v) j).isSome = (lookupSection d j).isSome := by
  rw [lookupSection_uciSet]
  cases lookupSection d j <;> rfl

theorem uciSet_of_absent {d : UciDomain} {i : Sid}
    (h : ∀ sec ∈ d, sec.id ≠ i) (k : String) (v : UciVal) :
    uciSet d i k v = d := by
  induction d with
  | nil => rfl
  | cons sec rest ih =>
    rw [uciSet, List.map_cons]
    rw [updOpt_of_ne (h sec (by simp)) k v]
    have : uciSet rest i k v = rest :=
      ih (fun s hs => h s (by simp [hs]))
    rw [uciSet] at this; rw [this]

theorem getOptVal_setOptList (opts : List (String × UciVal)) (k : String)
    (v : UciVal) (k' : String) :
    getOptVal (setOptList opts k v) k' =
      if k' = k then some v else getOptVal opts k' := by
  induction opts with
  | nil =>
    by_cases h : k' = k <;> simp [setOptList, getOptVal, h]
    · intro hk; exact absurd hk.symm h
  | cons p rest ih =>
    by_cases hp : p.1 = k
    · rw [setOptList, if_pos hp]
      by_cases h : k' = k
      · simp [getOptVal, h]
      · simp only [getOptVal, if_neg h]
        have : ¬(k = k') := fun hk => h hk.symm
        rw [if_neg this, if_neg (by rw [hp]; exact this)]
    · rw [setOptList, if_neg hp]
      by_cases h : k' = k
      · rw [getOptVal, if_neg (by rw [h]; exact hp), ih, if_pos h,
          if_pos h]
      · rw [getOptVal, ih, if_neg h, getOptVal, if_neg h]

theorem uciGet_uciSet_self {d : UciDomain} {i : Sid}
    (h : (lookupSection d i).isSome) (k : String) (v : UciVal) :
    uciGet (uciSet d i k v) i k = some v := by
  rw [uciGet, lookupSection_uciSet]
  cases hl : lookupSection d i with
  | none => rw [hl] at h; simp at h
  | some sec =>
    have hid : sec.id = i := lookupSection_id hl
    simp only [Option.map_some', Option.some_bind, updOpt, if_pos hid]
    rw [getOptVal_setOptList, if_pos rfl]

theorem uciGet_uciSet_ne_id {i j : Sid} (h : j ≠ i) (d : UciDomain)
    (k : String) (v : UciVal) (k' : String) :
    uciGet (uciSet d i k v) j k' = uciGet d j k' := by
  rw [uciGet, lookupSection_uciSet]
  cases hl : lookupSection d j with
  | none => simp [uciGet, hl]
  | some sec =>
    have hid : sec.id = j := lookupSection_id hl
    have hne : sec.id ≠ i := by rw [hid]; exact h
    simp only [Option.map_some', Option.some_bind, updOpt_of_ne hne]
    simp [uciGet, hl]

theorem uciGet_uciSet_ne_key {k k' : String} (h : k' ≠ k) (d : UciDomain)
    (i : Sid) (v : UciVal) (j : Sid) :
    uciGet (uciSet d i k v) j k' = uciGet d j k' := by
  rw [uciGet, lookupSection_uciSet]
  cases hl : lookupSection d j with
  | none => simp [uciGet, hl]
  | some sec =>
    simp only [Option.map_some', Option.some_bind, updOpt]
    split
    · simp only [getOptVal_setOptList, if_neg h]
      simp [uciGet, hl]
    · simp [uciGet, hl]

theorem sectionsOf_uciSet (d : UciDomain) (i : Sid) (k : String) (v : UciVal)
    (t : String) :
    sectionsOf (uciSet d i k v) t = (sectionsOf d t).map (updOpt i k v) := by
  rw [sectionsOf, uciSet, List.filter_map, sectionsOf]
  congr 1
  apply List.filter_congr
  intro sec _
  simp [Function.comp, updOpt_preserves_stype]

theorem freshAnon_cons (s : UciSection) (rest : UciDomain) :
    freshAnon (s :: rest) =
      match s.id with
      | Sid.anon n => max (n + 1) (freshAnon rest)
      | Sid.named _ => freshAnon rest := by
  rw [freshAnon, List.foldr_cons]
  rfl

theorem freshAnon_gt {d : UciDomain} {sec : UciSection} (h : sec ∈ d) :
    ∀ n, sec.id = Sid.anon n → n < freshAnon d := by
  induction d with
  | nil => cases h
  | cons s rest ih =>
    intro n hn
    rw [freshAnon_cons]
    rcases List.mem_cons.mp h with h1 | h1
    · subst h1
      rw [hn]
      show n < max (n + 1) (freshAnon rest)
      have := le_max_left (n + 1) (freshAnon rest)
      omega
    · have hrec := ih h1 n hn
      rcases hs : s.id with s' | m
      · exact hrec
      · show n < max (m + 1) (freshAnon rest)
        have := le_max_right (m + 1) (freshAnon rest)
        omega

theorem fresh_not_mem {d : UciDomain} {sec : UciSection} (h : sec ∈ d) :
    sec.id ≠ Sid.anon (freshAnon d) := by
  intro hid
  exact absurd (freshAnon_gt h (freshAnon d) hid) (lt_irrefl _)

theorem lookupSection_fresh_append (d : UciDomain) (t : String)
    (opts : List (String × UciVal)) :
    lookupSection (d ++ [⟨Sid.anon (freshAnon d), t, opts⟩])
      (Sid.anon (freshAnon d)) = some ⟨Sid.anon (freshAnon d), t, opts⟩ := by
  rw [lookupSection_append]
  have hnone : lookupSection d (Sid.anon (freshAnon d)) = none :=
    lookupSection_eq_none.mpr (fun sec hs => fresh_not_mem hs)
  rw [hnone]
  simp [lookupSection]

theorem uciGet_append_of_isSome {d : UciDomain} {i : Sid}
    (h : (lookupSection d i).isSome) (d2 : UciDomain) (k : String) :
    uciGet (d ++ d2) i k = uciGet d i k := by
  rw [uciGet, lookupSection_append_left h, uciGet]

theorem sectionsOf_append (d d2 : UciDomain) (t : String) :
    sectionsOf (d ++ d2) t = sectionsOf d t ++ sectionsOf d2 t := by
  rw [sectionsOf, List.filter_append, sectionsOf, sectionsOf]

theorem mem_sectionsOf {d : UciDomain} {t : String} {sec : UciSection} :
    sec ∈ sectionsOf d t ↔ sec ∈ d ∧ sec.stype = t := by
  rw [sectionsOf, List.mem_filter]
  simp

theorem lookupSection_uciRemove_ne {i j : Sid} (h : j ≠ i) (d : UciDomain) :
    lookupSection (uciRemove d i) j = lookupSection d j := by
  induction d with
  | nil => rfl
  | cons sec rest ih =>
    by_cases hs : sec.id = i
    · rw [uciRemove, List.filter_cons_of_neg (by simp [hs]),
        lookupSection, if_neg (by rw [hs]; exact fun he => h he.symm)]
      exact ih
    · rw [uciRemove, List.filter_cons_of_pos (by simp [hs]), lookupSection,
        lookupSection]
      split
      · rfl
      · exact ih

theorem uciGet_uciRemove_ne {i j : Sid} (h : j ≠ i) (d : UciDomain)
    (k : String) : uciGet (uciRemove d i) j k = uciGet d j k := by
  rw [uciGet, lookupSection_uciRemove_ne h, uciGet]

theorem sectionsOf_uciRemove (d : UciDomain) (i : Sid) (t : String) :
    sectionsOf (uciRemove d i) t = uciRemove (sectionsOf d t) i := by
  rw [sectionsOf, uciRemove, List.filter_filter, sectionsOf, uciRemove,
    List.filter_filter]
  apply List.filter_congr
  intro sec _
  rw [Bool.and_comm]

theorem mem_of_mem_uciRemove {d : UciDomain} {i : Sid} {sec : UciSection}
    (h : sec ∈ uciRemove d i) : sec ∈ d ∧ sec.id ≠ i := by
  rw [uciRemove, List.mem_filter] at h
  simpa using h

theorem lookupSection_uciUnset (d : UciDomain) (i : Sid) (k : String)
    (j : Sid) :
    lookupSection (uciUnset d i k) j =
      Option.map (unsetOpt i k) (lookupSection d j) := by
  induction d with
  | nil => simp [lookupSection, uciUnset]
  | cons sec rest ih =>
    rw [uciUnset, List.map_cons]
    have hid : (unsetOpt i k sec).id = sec.id := by
      unfold unsetOpt; split <;> rfl
    by_cases h : sec.id = j
    · rw [lookupSection, if_pos (by rw [hid]; exact h), lookupSection,
        if_pos h, Option.map_some']
    · rw [lookupSection, if_neg (by rw [hid]; exact h), lookupSection,
        if_neg h]
      exact ih

theorem find?_congr_mem {α : Type} {p q : α → Bool} :
    ∀ {l : List α}, (∀ a ∈ l, p a = q a) → l.find? p = l.find? q
  | [], _ => rfl
  | a :: l, h => by
    rw [List.find?_cons, List.find?_cons, h a (by simp)]
    cases q a
    · exact find?_congr_mem (fun x hx => h x (by simp [hx]))
    · rfl

theorem isSome_append_left {d : UciDomain} {j : Sid}
    (h : (lookupSection d j).isSome) (d2 : UciDomain) :
    (lookupSection (d ++ d2) j).isSome := by
  rw [lookupSection_append_left h]
  exact h

theorem isSome_append_single (d : UciDomain) (i : Sid) (t : String)
    (opts : List (String × UciVal)) :
    (lookupSection (d ++ [⟨i, t, opts⟩]) i).isSome := by
  rw [lookupSection_append]
  cases lookupSection d i <;> simp [lookupSection, Option.or]

theorem createDevicePhase_isSome_self (dev v6 : String) (net : UciDomain) :
    (lookupSection (createDevicePhase dev v6 net) (Sid.named dev)).isSome := by
  unfold createDevicePhase
  split
  · next heq => rw [heq]; rfl
  · dsimp only
    split <;> simp only [isSome_lookupSection_uciSet] <;>
      exact isSome_append_single net (Sid.named dev) "device" []

theorem createDevicePhase_isSome_mono {net : UciDomain} {j : Sid}
    (h : (lookupSection net j).isSome) (dev v6 : String) :
    (lookupSection (createDevicePhase dev v6 net) j).isSome := by
  unfold createDevicePhase
  split
  · exact h
  · dsimp only
    split <;> simp only [isSome_lookupSection_uciSet] <;>
      exact isSome_append_left h _

theorem createDevicePhase_noop {dev : String} {net : UciDomain}
    (h : (lookupSection net (Sid.named dev)).isSome) (v6 : String) :
    createDevicePhase dev v6 net = net := by
  unfold createDevicePhase
  split
  · rfl
  · next heq => rw [heq] at h; simp at h

theorem createIfacePhase_isSome_self (name dev gw mask v6 v6gw : String)
    (net : UciDomain) :
    (lookupSection (createIfacePhase name dev gw mask v6 v6gw net)
      (Sid.named name)).isSome := by
  unfold createIfacePhase
  split
  · next heq => rw [heq]; rfl
  · dsimp only
    split <;> simp only [isSome_lookupSection_uciSet] <;>
      exact isSome_append_single net (Sid.named name) "interface" []

theorem createIfacePhase_isSome_mono {net : UciDomain} {j : Sid}
    (h : (lookupSection net j).isSome) (name dev gw mask v6 v6gw : String) :
    (lookupSection (createIfacePhase name dev gw mask v6 v6gw net) j).isSome := by
  unfold createIfacePhase
  split
  · exact h
  · dsimp only
    split <;> simp only [isSome_lookupSection_uciSet] <;>
      exact isSome_append_left h _

theorem createIfacePhase_noop {name : String} {net : UciDomain}
    (h : (lookupSection net (Sid.named name)).isSome)
    (dev gw mask v6 v6gw : String) :
    createIfacePhase name dev gw mask v6 v6gw net = net := by
  unfold createIfacePhase
  split
  · rfl
  · next heq => rw [heq] at h; simp at h

theorem uciAddAnon_eq (d : UciDomain) (t : String) :
    uciAddAnon d t =
      (d ++ [⟨Sid.anon (freshAnon d), t, []⟩], Sid.anon (freshAnon d)) := rfl

theorem uciSet_append_last {d : UciDomain} {i : Sid}
    (h : ∀ sec ∈ d, sec.id ≠ i) (t : String) (opts : List (String × UciVal))
    (k : String) (v : UciVal) :
    uciSet (d ++ [⟨i, t, opts⟩]) i k v = d ++ [⟨i, t, setOptList opts k v⟩] := by
  rw [uciSet, List.map_append]
  congr 1
  · exact uciSet_of_absent h k v
  · simp [updOpt]

theorem ensureZoneMembership_created {zn name : String} {fw : UciDomain}
    (h : findZoneByName zn fw = none) :
    ensureZoneMembership zn name fw =
      fw ++ [⟨Sid.anon (freshAnon fw), "zone",
        [("name", UciVal.str zn), ("input", UciVal.str "DROP"),
         ("output", UciVal.str "ACCEPT"), ("forward", UciVal.str "REJECT"),
         ("network", UciVal.list [name])]⟩] := by
  unfold ensureZoneMembership
  split
  · next heq =>
    have hfresh : ∀ sec ∈ fw, sec.id ≠ Sid.anon (freshAnon fw) :=
      fun sec hs => fresh_not_mem hs
    dsimp only [uciAddAnon]
    rw [uciSet_append_last hfresh, uciSet_append_last hfresh,
      uciSet_append_last hfresh, uciSet_append_last hfresh,
      uciSet_append_last hfresh]
    simp [setOptList]
  · next z heq => rw [heq] at h; cases h

theorem ensureDnsRule_created {zn : String} {fw : UciDomain}
    (h : findRuleByName ("Allow-" ++ zn ++ "-DNS") fw = none) :
    ensureDnsRule zn fw =
      fw ++ [⟨Sid.anon (freshAnon fw), "rule",
        [("name", UciVal.str ("Allow-" ++ zn ++ "-DNS")),
         ("src", UciVal.str zn), ("dest_port", UciVal.str "53"),
         ("target", UciVal.str "ACCEPT")]⟩] := by
  unfold ensureDnsRule
  dsimp only
  split
  · next r heq => rw [heq] at h; cases h
  · next heq =>
    have hfresh : ∀ sec ∈ fw, sec.id ≠ Sid.anon (freshAnon fw) :=
      fun sec hs => fresh_not_mem hs
    rw [uciAddAnon_eq]
    dsimp only
    rw [uciSet_append_last hfresh, uciSet_append_last hfresh,
      uciSet_append_last hfresh, uciSet_append_last hfresh]
    simp [setOptList]

theorem mem_of_findZoneByName {zn : String} {fw : UciDomain} {z : UciSection}
    (h : findZoneByName zn fw = some z) : z ∈ fw ∧ z.stype = "zone" := by
  rw [findZoneByName] at h
  exact mem_sectionsOf.mp (List.mem_of_find?_eq_some h)

theorem mem_of_findRuleByName {rn : String} {fw : UciDomain} {r : UciSection}
    (h : findRuleByName rn fw = some r) : r ∈ fw ∧ r.stype = "rule" := by
  rw [findRuleByName] at h
  exact mem_sectionsOf.mp (List.mem_of_find?_eq_some h)

theorem findZoneByName_append_notZone {zn : String} (fw : UciDomain)
    {sec : UciSection} (hsec : sec.stype ≠ "zone") :
    findZoneByName zn (fw ++ [sec]) = findZoneByName zn fw := by
  rw [findZoneByName, findZoneByName, sectionsOf_append]
  have hempty : sectionsOf [sec] "zone" = [] := by
    simp [sectionsOf, hsec]
  rw [hempty, List.append_nil]
  apply find?_congr_mem
  intro a ha
  have hm := mem_sectionsOf.mp ha
  have hs : (lookupSection fw a.id).isSome := lookupSection_isSome_of_mem hm.1
  rw [uciGet_append_of_isSome hs]

theorem uciGet_of_mem_append {fw : UciDomain} {a : UciSection} (h : a ∈ fw)
    (d2 : UciDomain) (k : String) :
    uciGet (fw ++ d2) a.id k = uciGet fw a.id k :=
  uciGet_append_of_isSome (lookupSection_isSome_of_mem h) d2 k

theorem ensureZoneMembership_establishes (zn name : String) (fw : UciDomain) :
    ∃ z, findZoneByName zn (ensureZoneMembership zn name fw) = some z ∧
      name ∈ normList (uciGet (ensureZoneMembership zn name fw) z.id "network") := by
  cases hz : findZoneByName zn fw with
  | none =>
    rw [ensureZoneMembership_created hz]
    set zfull : UciSection := ⟨Sid.anon (freshAnon fw), "zone",
      [("name", UciVal.str zn), ("input", UciVal.str "DROP"),
       ("output", UciVal.str "ACCEPT"), ("forward", UciVal.str "REJECT"),
       ("network", UciVal.list [name])]⟩ with hzfull
    refine ⟨zfull, ?_, ?_⟩
    · rw [findZoneByName, sectionsOf_append]
      have hone : sectionsOf [zfull] "zone" = [zfull] := by
        simp [sectionsOf, hzfull]
      rw [hone, List.find?_append]
      have hnone : ((sectionsOf fw "zone").find? (fun z =>
          uciGet (fw ++ [zfull]) z.id "name" = some (UciVal.str zn))) = none := by
        rw [List.find?_eq_none]
        intro a ha
        have hm := mem_sectionsOf.mp ha
        rw [uciGet_of_mem_append hm.1]
        rw [findZoneByName, List.find?_eq_none] at hz
        exact hz a ha
      rw [hnone]
      have hlook : lookupSection (fw ++ [zfull]) zfull.id = some zfull :=
        lookupSection_fresh_append fw "zone" _
      have hname : uciGet (fw ++ [zfull]) zfull.id "name"
          = some (UciVal.str zn) := by
        rw [uciGet, hlook]
        rfl
      simp [List.find?, hname]
    · have hlook : lookupSection (fw ++ [zfull]) zfull.id = some zfull :=
        lookupSection_fresh_append fw "zone" _
      have : uciGet (fw ++ [zfull]) zfull.id "network"
          = some (UciVal.list [name]) := by
        rw [uciGet, hlook]
        rfl
      rw [this]
      simp [normList]
  | some z =>
    by_cases hmem : name ∈ normList (uciGet fw z.id "network")
    · have hid : ensureZoneMembership zn name fw = fw := by
        unfold ensureZoneMembership
        split
        · next heq => rw [heq] at hz; cases hz
        · next z' heq =>
          rw [heq] at hz
          injection hz with hzz
          subst hzz
          dsimp only
          rw [if_pos hmem]
      rw [hid]
      exact ⟨z, hz, hmem⟩
    · have hstep : ensureZoneMembership zn name fw =
          uciSet fw z.id "network"
            (UciVal.list (normList (uciGet fw z.id "network") ++ [name])) := by
        unfold ensureZoneMembership
        split
        · next heq => rw [heq] at hz; cases hz
        · next z' heq =>
          rw [heq] at hz
          injection hz with hzz
          subst hzz
          dsimp only
          rw [if_neg hmem]
      rw [hstep]
      set v := UciVal.list (normList (uciGet fw z.id "network") ++ [name])
        with hv
      have hall := mem_of_findZoneByName hz
      refine ⟨updOpt z.id "network" v z, ?_, ?_⟩
      · rw [findZoneByName, sectionsOf_uciSet, List.find?_map]
        have hcongr : ((sectionsOf fw "zone").find? ((fun zz =>
            decide (uciGet (uciSet fw z.id "network" v) zz.id "name"
              = some (UciVal.str zn))) ∘ updOpt z.id "network" v)) =
            ((sectionsOf fw "zone").find? (fun zz =>
              decide (uciGet fw zz.id "name" = some (UciVal.str zn)))) := by
          apply find?_congr_mem
          intro a _
          simp only [Function.comp]
          rw [updOpt_preserves_id,
            uciGet_uciSet_ne_key (by decide : ("name" : String) ≠ "network")]
        rw [hcongr]
        rw [findZoneByName] at hz
        rw [hz, Option.map_some']
      · rw [updOpt_preserves_id]
        have hsome : (lookupSection fw z.id).isSome :=
          lookupSection_isSome_of_mem hall.1
        rw [uciGet_uciSet_self hsome, hv]
        simp [normList]

theorem ensureZoneMembership_noop {zn name : String} {fw : UciDomain}
    (h : ∃ z, findZoneByName zn fw = some z ∧
      name ∈ normList (uciGet fw z.id "network")) :
    ensureZoneMembership zn name fw = fw := by
  obtain ⟨z, hz, hmem⟩ := h
  unfold ensureZoneMembership
  split
  · next heq => rw [heq] at hz; cases hz
  · next z' heq =>
    rw [heq] at hz
    injection hz with hzz
    subst hzz
    dsimp only
    rw [if_pos hmem]

theorem ensureDnsRule_preserves_zone {zn name : String} {fw : UciDomain}
    (h : ∃ z, findZoneByName zn fw = some z ∧
      name ∈ normList (uciGet fw z.id "network")) (zn2 : String) :
    ∃ z, findZoneByName zn (ensureDnsRule zn2 fw) = some z ∧
      name ∈ normList (uciGet (ensureDnsRule zn2 fw) z.id "network") := by
  obtain ⟨z, hz, hmem⟩ := h
  cases hr : findRuleByName ("Allow-" ++ zn2 ++ "-DNS") fw with
  | some r =>
    have : ensureDnsRule zn2 fw = fw := by
      unfold ensureDnsRule
      dsimp only
      split
      · rfl
      · next heq => rw [heq] at hr; cases hr
    rw [this]
    exact ⟨z, hz, hmem⟩
  | none =>
    rw [ensureDnsRule_created hr]
    have hmemfw := (mem_of_findZoneByName hz).1
    refine ⟨z, ?_, ?_⟩
    · rw [findZoneByName_append_notZone fw (by simp)]
      exact hz
    · rw [uciGet_of_mem_append hmemfw]
      exact hmem

theorem ensureDnsRule_establishes (zn : String) (fw : UciDomain) :
    (findRuleByName ("Allow-" ++ zn ++ "-DNS") (ensureDnsRule zn fw)).isSome := by
  cases hr : findRuleByName ("Allow-" ++ zn ++ "-DNS") fw with
  | some r =>
    have : ensureDnsRule zn fw = fw := by
      unfold ensureDnsRule
      dsimp only
      split
      · rfl
      · next heq => rw [heq] at hr; cases hr
    rw [this, hr]
    rfl
  | none =>
    rw [ensureDnsRule_created hr]
    set rfull : UciSection := ⟨Sid.anon (freshAnon fw), "rule",
      [("name", UciVal.str ("Allow-" ++ zn ++ "-DNS")),
       ("src", UciVal.str zn), ("dest_port", UciVal.str "53"),
       ("target", UciVal.str "ACCEPT")]⟩ with hrfull
    rw [findRuleByName, sectionsOf_append]
    have hone : sectionsOf [rfull] "rule" = [rfull] := by
      simp [sectionsOf, hrfull]
    rw [hone, List.find?_append]
    have hnone : ((sectionsOf fw "rule").find? (fun r =>
        uciGet (fw ++ [rfull]) r.id "name"
          = some (UciVal.str ("Allow-" ++ zn ++ "-DNS")))) = none := by
      rw [List.find?_eq_none]
      intro a ha
      have hm := mem_sectionsOf.mp ha
      rw [uciGet_of_mem_append hm.1]
      rw [findRuleByName, List.find?_eq_none] at hr
      exact hr a ha
    rw [hnone]
    have hlook : lookupSection (fw ++ [rfull]) rfull.id = some rfull :=
      lookupSection_fresh_append fw "rule" _
    have hname : uciGet (fw ++ [rfull]) rfull.id "name"
        = some (UciVal.str ("Allow-" ++ zn ++ "-DNS")) := by
      rw [uciGet, hlook]
      rfl
    simp [List.find?, hname]

theorem ensureDnsRule_noop {zn : String} {fw : UciDomain}
    (h : (findRuleByName ("Allow-" ++ zn ++ "-DNS") fw).isSome) :
    ensureDnsRule zn fw = fw := by
  unfold ensureDnsRule
  dsimp only
  split
  · rfl
  · next heq => rw [heq] at h; simp at h

theorem configureDnsmasq_skip (dev : String) (e : Bool) {dhcp : UciDomain}
    (h : sectionsOf dhcp "dnsmasq" = []) :
    configureDnsmasq dev e dhcp = (dhcp, []) := by
  unfold configureDnsmasq
  rw [h]

theorem configureDnsmasq_enable_mem {dev : String} {dhcp : UciDomain}
    {mainSec : UciSection} {rest : UciDomain}
    (h : sectionsOf dhcp "dnsmasq" = mainSec :: rest)
    (hmem : dev ∈ normList (uciGet dhcp mainSec.id "notinterface")) :
    configureDnsmasq dev true dhcp =
      (dhcp, [Event.applyTimeout 90, Event.save, Event.restartDnsmasq]) := by
  unfold configureDnsmasq
  rw [h]
  dsimp only
  rw [if_pos hmem, if_pos rfl]

theorem configureDnsmasq_enable_notMem {dev : String} {dhcp : UciDomain}
    {mainSec : UciSection} {rest : UciDomain}
    (h : sectionsOf dhcp "dnsmasq" = mainSec :: rest)
    (hmem : dev ∉ normList (uciGet dhcp mainSec.id "notinterface")) :
    configureDnsmasq dev true dhcp =
      (uciSet dhcp mainSec.id "notinterface"
        (UciVal.list (normList (uciGet dhcp mainSec.id "notinterface") ++ [dev])),
       [Event.applyTimeout 90, Event.save, Event.restartDnsmasq]) := by
  unfold configureDnsmasq
  rw [h]
  dsimp only
  rw [if_neg hmem, if_pos rfl]

theorem mem_dhcp_of_sectionsOf_cons {dhcp : UciDomain} {mainSec : UciSection}
    {rest : UciDomain} (h : sectionsOf dhcp "dnsmasq" = mainSec :: rest) :
    mainSec ∈ dhcp ∧ mainSec.stype = "dnsmasq" :=
  mem_sectionsOf.mp (h ▸ List.mem_cons_self mainSec rest)

theorem configureDnsmasq_enable_idem (dev : String) (dhcp : UciDomain) :
    (configureDnsmasq dev true (configureDnsmasq dev true dhcp).1).1 =
      (configureDnsmasq dev true dhcp).1 := by
  cases h : sectionsOf dhcp "dnsmasq" with
  | nil =>
    rw [configureDnsmasq_skip dev true h]
    rw [configureDnsmasq_skip dev true h]
  | cons mainSec rest =>
    by_cases hmem : dev ∈ normList (uciGet dhcp mainSec.id "notinterface")
    · rw [configureDnsmasq_enable_mem h hmem]
      rw [configureDnsmasq_enable_mem h hmem]
    · rw [configureDnsmasq_enable_notMem h hmem]
      set v := UciVal.list
        (normList (uciGet dhcp mainSec.id "notinterface") ++ [dev]) with hv
      set d2 := uciSet dhcp mainSec.id "notinterface" v with hd2
      have h2 : sectionsOf d2 "dnsmasq" =
          updOpt mainSec.id "notinterface" v mainSec ::
            rest.map (updOpt mainSec.id "notinterface" v) := by
        rw [hd2, sectionsOf_uciSet, h, List.map_cons]
      have hsome : (lookupSection dhcp mainSec.id).isSome :=
        lookupSection_isSome_of_mem (mem_dhcp_of_sectionsOf_cons h).1
      have hget : uciGet d2 (updOpt mainSec.id "notinterface" v mainSec).id
          "notinterface" = some v := by
        rw [updOpt_preserves_id, hd2]
        exact uciGet_uciSet_self hsome "notinterface" v
      have hmem2 : dev ∈ normList (uciGet d2
          (updOpt mainSec.id "notinterface" v mainSec).id "notinterface") := by
        rw [hget, hv]
        simp [normList]
      rw [configureDnsmasq_enable_mem h2 hmem2]

/-- C1: `createIntegration` is idempotent on the config store.  For every
network name, options object and initial store, running the operation twice
with identical inputs leaves the store (network, firewall and dhcp domains)
in exactly the state reached after running it once: on the second run the
bridge-device, interface, zone-membership, DNS-rule and dnsmasq-exclusion
steps all find their target already present and mutate nothing. -/
theorem C1_createIntegration_idempotent (networkName : String)
    (o : CreateOptions) (s : Store) :
    (createIntegration networkName o (createIntegration networkName o s).1).1 =
      (createIntegration networkName o s).1 := by
  unfold createIntegration
  by_cases hb : needsBridge (jsOrDefault o.driver "bridge") = true
  · simp only [hb, if_true, reduceIte]
    simp only [Store.mk.injEq]
    refine ⟨?_, ?_, ?_⟩
    · have h1 : (lookupSection (createIfacePhase networkName o.bridgeName
          o.gateway (prefixToMask (cidrToPrefixLen o.subnet)) o.ipv6subnet
          o.ipv6gateway (createDevicePhase o.bridgeName o.ipv6subnet s.network))
          (Sid.named o.bridgeName)).isSome :=
        createIfacePhase_isSome_mono
          (createDevicePhase_isSome_self o.bridgeName o.ipv6subnet s.network)
          networkName o.bridgeName o.gateway
          (prefixToMask (cidrToPrefixLen o.subnet)) o.ipv6subnet o.ipv6gateway
      rw [createDevicePhase_noop h1]
      have h2 := createIfacePhase_isSome_self networkName o.bridgeName
        o.gateway (prefixToMask (cidrToPrefixLen o.subnet)) o.ipv6subnet
        o.ipv6gateway (createDevicePhase o.bridgeName o.ipv6subnet s.network)
      rw [createIfacePhase_noop h2]
    · have hz2 := ensureDnsRule_preserves_zone
        (ensureZoneMembership_establishes
          (if jsOrDefault o.zoneName "_create_new_" = "_create_new_" then
            "podman_" ++ networkName else jsOrDefault o.zoneName "_create_new_")
          networkName s.firewall)
        (if jsOrDefault o.zoneName "_create_new_" = "_create_new_" then
          "podman_" ++ networkName else jsOrDefault o.zoneName "_create_new_")
      rw [ensureZoneMembership_noop hz2]
      have hr2 := ensureDnsRule_establishes
        (if jsOrDefault o.zoneName "_create_new_" = "_create_new_" then
          "podman_" ++ networkName else jsOrDefault o.zoneName "_create_new_")
        (ensureZoneMembership
          (if jsOrDefault o.zoneName "_create_new_" = "_create_new_" then
            "podman_" ++ networkName else jsOrDefault o.zoneName "_create_new_")
          networkName s.firewall)
      rw [ensureDnsRule_noop hr2]
    · exact configureDnsmasq_enable_idem o.bridgeName s.dhcp
  · simp only [hb, if_false, Bool.false_eq_true, reduceIte]
    simp only [Store.mk.injEq]
    refine ⟨?_, ?_, trivial⟩
    · have h2 := createIfacePhase_isSome_self networkName o.parent o.gateway
        (prefixToMask (cidrToPrefixLen o.subnet)) o.ipv6subnet o.ipv6gateway
        s.network
      rw [createIfacePhase_noop h2]
    · have hz2 := ensureDnsRule_preserves_zone
        (ensureZoneMembership_establishes
          (if jsOrDefault o.zoneName "_create_new_" = "_create_new_" then
            "podman_" ++ networkName else jsOrDefault o.zoneName "_create_new_")
          networkName s.firewall)
        (if jsOrDefault o.zoneName "_create_new_" = "_create_new_" then
          "podman_" ++ networkName else jsOrDefault o.zoneName "_create_new_")
      rw [ensureZoneMembership_noop hz2]
      have hr2 := ensureDnsRule_establishes
        (if jsOrDefault o.zoneName "_create_new_" = "_create_new_" then
          "podman_" ++ networkName else jsOrDefault o.zoneName "_create_new_")
        (ensureZoneMembership
          (if jsOrDefault o.zoneName "_create_new_" = "_create_new_" then
            "podman_" ++ networkName else jsOrDefault o.zoneName "_create_new_")
          networkName s.firewall)
      rw [ensureDnsRule_noop hr2]

/-- C8: `isIntegrationComplete` never rejects.  For every network name and
driver string, when the config-store load fails with any error, the promise
still resolves with `complete = false`, `missing = ["unknown"]` and the
initial details object, instead of propagating the error; and on every
successful load it resolves with the computed status. -/
theorem C8_isIntegrationComplete_never_rejects :
    (∀ (networkName driver0 err : String),
      isIntegrationComplete networkName driver0 (Except.error err) =
        ⟨false, ["unknown"], initDetails (jsOrDefault driver0 "bridge")⟩) ∧
    (∀ (networkName driver0 : String) (s : Store),
      isIntegrationComplete networkName driver0 (Except.ok s) =
        isIntegrationCompleteOk networkName driver0 s) := by
  constructor
  · intro networkName driver0 err
    rfl
  · intro networkName driver0 s
    rfl

/-- C10: `hasIntegration` and `getIntegration` never reject.  For every
network name, when loading the network config fails with any error,
`hasIntegration` resolves to `false` and `getIntegration` resolves to `null`,
instead of propagating the store error. -/
theorem C10_has_get_integration_never_reject :
    (∀ (networkName err : String),
      hasIntegration networkName (Except.error err) = false) ∧
    (∀ (networkName err : String),
      getIntegration networkName (Except.error err) = none) := by
  constructor
  · intro networkName err
    rfl
  · intro networkName err
    rfl

/-- C6: in `isIntegrationComplete` for a bridge-driver network, a section
carrying the device's name whose `type` option is not exactly `"bridge"`
makes the device component count as missing (`hasDevice` stays false); and
whenever the dhcp config has no dnsmasq section at all, the dnsmasq exclusion
component is never reported missing (treated as satisfied). -/
theorem C6_status_wrong_type_and_no_dnsmasq :
    (∀ (networkName dev : String) (s : Store),
      dev ≠ "" →
      uciGet s.network (Sid.named networkName) "device" =
        some (UciVal.str dev) →
      (lookupSection s.network (Sid.named dev)).isSome →
      uciGet s.network (Sid.named dev) "type" ≠ some (UciVal.str "bridge") →
      "device" ∈ (isIntegrationCompleteOk networkName "bridge" s).missing ∧
        (isIntegrationCompleteOk networkName "bridge" s).details.hasDevice
          = false) ∧
    (∀ (networkName driver0 : String) (s : Store),
      sectionsOf s.dhcp "dnsmasq" = [] →
      "dnsmasq" ∉ (isIntegrationCompleteOk networkName driver0 s).missing) := by
  constructor
  · intro networkName dev s hne hdev hsome htype
    obtain ⟨sec, hsec⟩ := Option.isSome_iff_exists.mp hsome
    unfold isIntegrationCompleteOk
    simp only [hdev, jsOrDefault, uciValTruthy, uciValToKey, needsBridge,
      Option.getD_some, hsec]
    rw [if_pos (by simpa using hne)]
    rw [if_pos htype]
    constructor
    · simp [List.mem_append]
    · split <;> simp [initDetails]
  · intro networkName driver0 s h
    unfold isIntegrationCompleteOk
    simp only [h]
    split
    · split
      · split
        · simp
        · split
          · split <;> simp [List.mem_append, initDetails]
          · simp [List.mem_append]
      · split <;> simp [List.mem_append, initDetails]
    · simp [List.mem_append]

/-- Witness for C6: a concrete store where the device-named section has type
`"vlan"`, and a concrete store with no dnsmasq section. -/
theorem C6_status_wrong_type_and_no_dnsmasq_witness :
    ("device" ∈ (isIntegrationCompleteOk "net1" "bridge"
        ⟨[⟨Sid.named "net1", "interface", [("device", UciVal.str "br0")]⟩,
          ⟨Sid.named "br0", "device", [("type", UciVal.str "vlan")]⟩],
         [], []⟩).missing ∧
      (isIntegrationCompleteOk "net1" "bridge"
        ⟨[⟨Sid.named "net1", "interface", [("device", UciVal.str "br0")]⟩,
          ⟨Sid.named "br0", "device", [("type", UciVal.str "vlan")]⟩],
         [], []⟩).details.hasDevice = false) ∧
    "dnsmasq" ∉ (isIntegrationCompleteOk "net1" "bridge"
      ⟨[], [], []⟩).missing :=
  ⟨C6_status_wrong_type_and_no_dnsmasq.1 "net1" "br0"
      ⟨[⟨Sid.named "net1", "interface", [("device", UciVal.str "br0")]⟩,
        ⟨Sid.named "br0", "device", [("type", UciVal.str "vlan")]⟩],
       [], []⟩
      (by decide) (by decide) (by decide) (by decide),
    C6_status_wrong_type_and_no_dnsmasq.2 "net1" "bridge" ⟨[], [], []⟩
      (by decide)⟩

/-- C5: `repairIntegration` never touches the firewall domain (no zone or
rule is created, joined, deleted or modified by any call), and when the prior
status check reports the integration complete it performs no store mutation
and no commit at all, returning the no-op result with `added = []` and
`skipped = ["complete"]`. -/
theorem C5_repairIntegration_firewall_frame :
    (∀ (networkName : String) (o : CreateOptions) (s : Store),
      (repairIntegration networkName o s).store.firewall = s.firewall) ∧
    (∀ (networkName : String) (o : CreateOptions) (s : Store),
      (isIntegrationCompleteOk networkName
        (jsOrDefault o.driver "bridge") s).complete = true →
      repairIntegration networkName o s = ⟨s, [], [], ["complete"]⟩) := by
  constructor
  · intro networkName o s
    unfold repairIntegration
    dsimp only
    split
    · rfl
    · split <;> rfl
  · intro networkName o s h
    unfold repairIntegration
    dsimp only
    rw [if_pos h]

/-- Witness for C5: a complete macvlan integration (interface bound to its
parent) makes `repairIntegration` a strict no-op, and a concrete call leaves
the firewall domain unchanged. -/
theorem C5_repairIntegration_firewall_frame_witness :
    Store.firewall
      (RepairResult.store (repairIntegration "net1"
        ⟨"macvlan", "", "eth0", "10.1.0.0/24", "10.1.0.1", "", "", ""⟩
        ⟨[⟨Sid.named "net1", "interface", [("device", UciVal.str "eth0")]⟩],
         [⟨Sid.anon 0, "zone", [("name", UciVal.str "lan")]⟩], []⟩)) =
      [⟨Sid.anon 0, "zone", [("name", UciVal.str "lan")]⟩] ∧
    repairIntegration "net1"
      ⟨"macvlan", "", "eth0", "10.1.0.0/24", "10.1.0.1", "", "", ""⟩
      ⟨[⟨Sid.named "net1", "interface", [("device", UciVal.str "eth0")]⟩],
       [⟨Sid.anon 0, "zone", [("name", UciVal.str "lan")]⟩], []⟩ =
      ⟨⟨[⟨Sid.named "net1", "interface", [("device", UciVal.str "eth0")]⟩],
        [⟨Sid.anon 0, "zone", [("name", UciVal.str "lan")]⟩], []⟩,
       [], [], ["complete"]⟩ :=
  ⟨C5_repairIntegration_firewall_frame.1 "net1"
      ⟨"macvlan", "", "eth0", "10.1.0.0/24", "10.1.0.1", "", "", ""⟩
      ⟨[⟨Sid.named "net1", "interface", [("device", UciVal.str "eth0")]⟩],
       [⟨Sid.anon 0, "zone", [("name", UciVal.str "lan")]⟩], []⟩,
    C5_repairIntegration_firewall_frame.2 "net1"
      ⟨"macvlan", "", "eth0", "10.1.0.0/24", "10.1.0.1", "", "", ""⟩
      ⟨[⟨Sid.named "net1", "interface", [("device", UciVal.str "eth0")]⟩],
       [⟨Sid.anon 0, "zone", [("name", UciVal.str "lan")]⟩], []⟩
      (by decide)⟩

theorem configureDnsmasq_events (dev : String) (e : Bool) (dhcp : UciDomain) :
    (configureDnsmasq dev e dhcp).2 =
      if (sectionsOf dhcp "dnsmasq").isEmpty then []
      else [Event.applyTimeout 90, Event.save, Event.restartDnsmasq] := by
  unfold configureDnsmasq
  cases h : sectionsOf dhcp "dnsmasq" with
  | nil => simp
  | cons a l => simp

/-- C4 counterexample: on a store with a dnsmasq section, one
`createIntegration` call for a bridge network issues the commit trace
`save, apply, flush, apply, save, restart` — two save/apply pairs, and in the
second (the `_configureDnsmasq` helper) `apply(90)` precedes `save`.  This
refutes the claim that every operation commits exactly once with apply never
preceding save. -/
theorem C4_double_commit_counterexample :
    (createIntegration "net1"
        ⟨"bridge", "pbr0", "", "10.129.0.0/24", "10.129.0.1", "", "", ""⟩
        ⟨[], [], [⟨Sid.anon 0, "dnsmasq", []⟩]⟩).2 =
      [Event.save, Event.applyTimeout 90, Event.flushCache,
       Event.applyTimeout 90, Event.save, Event.restartDnsmasq] ∧
    (createIntegration "net1"
        ⟨"bridge", "pbr0", "", "10.129.0.0/24", "10.129.0.1", "", "", ""⟩
        ⟨[], [], [⟨Sid.anon 0, "dnsmasq", []⟩]⟩).2.count Event.save = 2 := by
  constructor
  · rfl
  · rfl

/-- C4 as amended: every operation issues at most one `save` followed by
`apply(90)` and a cache flush for the buffered network/firewall mutations;
additionally, on the bridge-driver paths that touch the dnsmasq exclusion
(and only when a dnsmasq section exists), a second commit is issued for the
dhcp domain in which `apply(90)` precedes `save`, followed by the resolver
restart.  `repairIntegration` on a complete integration issues no commit at
all. -/
theorem C4_commit_event_shape :
    (∀ (networkName : String) (o : CreateOptions) (s : Store),
      (createIntegration networkName o s).2 =
        [Event.save, Event.applyTimeout 90, Event.flushCache] ++
          (if needsBridge (jsOrDefault o.driver "bridge") &&
              !(sectionsOf s.dhcp "dnsmasq").isEmpty then
            [Event.applyTimeout 90, Event.save, Event.restartDnsmasq]
          else [])) ∧
    (∀ (networkName deviceName driver0 : String) (s : Store),
      (removeIntegration networkName deviceName driver0 s).2 =
        [Event.save, Event.applyTimeout 90, Event.flushCache] ++
          (if (needsBridge (jsOrDefault driver0 "bridge") &&
                (removeDevicePhase networkName deviceName
                  (jsOrDefault driver0 "bridge")
                  (removeIfacePhase networkName s.network)).2) &&
              !(sectionsOf s.dhcp "dnsmasq").isEmpty then
            [Event.applyTimeout 90, Event.save, Event.restartDnsmasq]
          else [])) ∧
    (∀ (networkName : String) (o : CreateOptions) (s : Store),
      (repairIntegration networkName o s).events =
        if (isIntegrationCompleteOk networkName
            (jsOrDefault o.driver "bridge") s).complete then []
        else
          [Event.save, Event.applyTimeout 90, Event.flushCache] ++
            (if (!(isIntegrationCompleteOk networkName
                  (jsOrDefault o.driver "bridge") s).details.hasDnsmasqExclusion
                && needsBridge (jsOrDefault o.driver "bridge")) &&
                !(sectionsOf s.dhcp "dnsmasq").isEmpty then
              [Event.applyTimeout 90, Event.save, Event.restartDnsmasq]
            else [])) := by
  refine ⟨?_, ?_, ?_⟩
  · intro networkName o s
    unfold createIntegration
    dsimp only
    by_cases hb : needsBridge (jsOrDefault o.driver "bridge") = true
    · rw [if_pos hb, hb]
      rw [configureDnsmasq_events]
      cases hEmpty : (sectionsOf s.dhcp "dnsmasq").isEmpty <;> simp
    · rw [if_neg hb]
      simp only [Bool.not_eq_true] at hb
      rw [hb]
      simp
  · intro networkName deviceName driver0 s
    unfold removeIntegration
    dsimp only
    by_cases hb : (needsBridge (jsOrDefault driver0 "bridge") &&
        (removeDevicePhase networkName deviceName (jsOrDefault driver0 "bridge")
          (removeIfacePhase networkName s.network)).2) = true
    · rw [if_pos hb, hb]
      rw [configureDnsmasq_events]
      cases hEmpty : (sectionsOf s.dhcp "dnsmasq").isEmpty <;> simp
    · rw [if_neg hb]
      simp only [Bool.not_eq_true] at hb
      rw [hb]
      simp
  · intro networkName o s
    unfold repairIntegration
    dsimp only
    by_cases hc : (isIntegrationCompleteOk networkName
        (jsOrDefault o.driver "bridge") s).complete = true
    · rw [if_pos hc, if_pos hc]
    · rw [if_neg hc, if_neg hc]
      by_cases hd : (!(isIntegrationCompleteOk networkName
          (jsOrDefault o.driver "bridge") s).details.hasDnsmasqExclusion &&
          needsBridge (jsOrDefault o.driver "bridge")) = true
      · rw [if_pos hd, hd]
        rw [configureDnsmasq_events]
        cases hEmpty : (sectionsOf s.dhcp "dnsmasq").isEmpty <;> simp
      · rw [if_neg hd]
        simp only [Bool.not_eq_true] at hd
        rw [hd]
        simp

theorem getOptVal_filter_ne (opts : List (String × UciVal)) (k : String) :
    getOptVal (opts.filter (fun p => p.1 ≠ k)) k = none := by
  induction opts with
  | nil => rfl
  | cons p rest ih =>
    by_cases h : p.1 = k
    · rw [List.filter_cons_of_neg (by simp [h])]
      exact ih
    · rw [List.filter_cons_of_pos (by simp [h]), getOptVal, if_neg h]
      exact ih

theorem uciGet_uciUnset_self (d : UciDomain) (i : Sid) (k : String) :
    uciGet (uciUnset d i k) i k = none := by
  rw [uciGet, lookupSection_uciUnset]
  cases hl : lookupSection d i with
  | none => rfl
  | some sec =>
    have hid : sec.id = i := lookupSection_id hl
    simp only [Option.map_some', Option.some_bind, unsetOpt, if_pos hid]
    exact getOptVal_filter_ne sec.options k

/-- C3 counterexample: with no device section at all (so nothing can be
deleted in the device-cleanup step) but the device still on the resolver's
exclusion list, `removeIntegration` for a bridge driver nevertheless strips
the device from the exclusion list — refuting "the exclusion list is left
unchanged if the device was not actually deleted". -/
theorem C3_exclusion_removed_without_device_delete_counterexample :
    deviceWasDeleted "net1" "pbr0" "bridge"
      (removeIfacePhase "net1" ([] : UciDomain)) = false ∧
    Store.network (removeIntegration "net1" "pbr0" "bridge"
      ⟨[], [],
       [⟨Sid.anon 0, "dnsmasq", [("notinterface", UciVal.list ["pbr0"])]⟩]⟩).1
      = [] ∧
    Store.dhcp (removeIntegration "net1" "pbr0" "bridge"
      ⟨[], [],
       [⟨Sid.anon 0, "dnsmasq", [("notinterface", UciVal.list ["pbr0"])]⟩]⟩).1
      = [⟨Sid.anon 0, "dnsmasq", []⟩] ∧
    Store.dhcp (removeIntegration "net1" "pbr0" "bridge"
      ⟨[], [],
       [⟨Sid.anon 0, "dnsmasq", [("notinterface", UciVal.list ["pbr0"])]⟩]⟩).1
      ≠ [⟨Sid.anon 0, "dnsmasq", [("notinterface", UciVal.list ["pbr0"])]⟩] := by
  refine ⟨rfl, rfl, rfl, ?_⟩
  decide

/-- C3 as amended: for a bridge-driver network the resolver-exclusion step is
keyed on the reference count alone (the source's `shouldRemoveBridge` flag):
the dhcp domain is rewritten through `_configureDnsmasq(device, false)`
exactly when no other interface references the device after the interface
removal — also when the device section was already absent and nothing was
actually deleted — and is left untouched otherwise; whenever that step runs
on a store with a dnsmasq section, the device ends up absent from the
exclusion list. -/
theorem C3_exclusion_follows_refcount :
    (∀ (networkName deviceName driver0 : String) (s : Store),
      needsBridge (jsOrDefault driver0 "bridge") = true →
      Store.dhcp (removeIntegration networkName deviceName driver0 s).1 =
        if otherIfaceCount networkName deviceName
            (removeIfacePhase networkName s.network) = 0 then
          (configureDnsmasq deviceName false s.dhcp).1
        else s.dhcp) ∧
    (∀ (deviceName : String) (dhcp : UciDomain) (mainSec : UciSection)
        (rest : UciDomain),
      sectionsOf dhcp "dnsmasq" = mainSec :: rest →
      deviceName ∉ normList (uciGet (configureDnsmasq deviceName false dhcp).1
        mainSec.id "notinterface")) := by
  constructor
  · intro networkName deviceName driver0 s hb
    unfold removeIntegration
    dsimp only
    unfold removeDevicePhase
    rw [if_pos hb]
    by_cases hcnt : otherIfaceCount networkName deviceName
        (removeIfacePhase networkName s.network) = 0
    · rw [if_pos hcnt, if_pos hcnt]
      cases hl : (lookupSection (removeIfacePhase networkName s.network)
          (Sid.named deviceName)).isSome <;>
        simp [hl, hb]
    · rw [if_neg hcnt, if_neg hcnt]
      simp
  · intro deviceName dhcp mainSec rest h
    have hsome : (lookupSection dhcp mainSec.id).isSome :=
      lookupSection_isSome_of_mem (mem_dhcp_of_sectionsOf_cons h).1
    unfold configureDnsmasq
    rw [h]
    dsimp only
    rw [if_neg (by decide : ¬(false = true))]
    by_cases hf : (normList (uciGet dhcp mainSec.id "notinterface")).filter
        (fun x => x ≠ deviceName) ≠ []
    · rw [if_pos hf]
      rw [uciGet_uciSet_self hsome]
      intro hmem
      rw [normList] at hmem
      have := (List.mem_filter.mp hmem).2
      simp at this
    · rw [if_neg hf]
      rw [uciGet_uciUnset_self]
      simp [normList]

/-- Witness for C3: a concrete bridge removal whose dhcp outcome follows the
reference count, and a concrete exclusion-list strip. -/
theorem C3_exclusion_follows_refcount_witness :
    (Store.dhcp (removeIntegration "net1" "pbr0" "bridge"
        ⟨[⟨Sid.named "net2", "interface", [("device", UciVal.str "pbr0")]⟩],
         [],
         [⟨Sid.anon 0, "dnsmasq", [("notinterface", UciVal.list ["pbr0"])]⟩]⟩).1
      = if otherIfaceCount "net1" "pbr0" (removeIfacePhase "net1"
            [⟨Sid.named "net2", "interface",
              [("device", UciVal.str "pbr0")]⟩]) = 0 then
          (configureDnsmasq "pbr0" false
            [⟨Sid.anon 0, "dnsmasq",
              [("notinterface", UciVal.list ["pbr0"])]⟩]).1
        else
          [⟨Sid.anon 0, "dnsmasq", [("notinterface", UciVal.list ["pbr0"])]⟩]) ∧
    "pbr0" ∉ normList (uciGet (configureDnsmasq "pbr0" false
        [⟨Sid.anon 0, "dnsmasq", [("notinterface", UciVal.list ["pbr0"])]⟩]).1
      (Sid.anon 0) "notinterface") :=
  ⟨C3_exclusion_follows_refcount.1 "net1" "pbr0" "bridge"
      ⟨[⟨Sid.named "net2", "interface", [("device", UciVal.str "pbr0")]⟩],
       [],
       [⟨Sid.anon 0, "dnsmasq", [("notinterface", UciVal.list ["pbr0"])]⟩]⟩
      (by decide),
    C3_exclusion_follows_refcount.2 "pbr0"
      [⟨Sid.anon 0, "dnsmasq", [("notinterface", UciVal.list ["pbr0"])]⟩]
      ⟨Sid.anon 0, "dnsmasq", [("notinterface", UciVal.list ["pbr0"])]⟩ []
      (by decide)⟩

/-- C2: `removeIntegration` reference-counts the bridge device.  First
conjunct: for a bridge-driver network, whenever some other interface section
still carries the device name in its `device` option (after the interface
removal step, which never touches other sections), the device section is not
deleted — the network domain is exactly the interface-removal result — and
the dhcp exclusion list is untouched.  Second conjunct: in the concrete
two-network scenario sharing one device, removing one network keeps the
device section and the exclusion entry, and removing the second then deletes
the device and clears the exclusion. -/
theorem C2_removeIntegration_bridge_refcount :
    (∀ (networkName deviceName driver0 : String) (s : Store),
      needsBridge (jsOrDefault driver0 "bridge") = true →
      (∃ z ∈ sectionsOf (removeIfacePhase networkName s.network) "interface",
        z.id ≠ Sid.named networkName ∧
        uciGet (removeIfacePhase networkName s.network) z.id "device" =
          some (UciVal.str deviceName)) →
      Store.network (removeIntegration networkName deviceName driver0 s).1 =
        removeIfacePhase networkName s.network ∧
      Store.dhcp (removeIntegration networkName deviceName driver0 s).1 =
        s.dhcp) ∧
    ((lookupSection (Store.network (removeIntegration "net1" "pbr0" "bridge"
        ⟨[⟨Sid.named "net1", "interface", [("device", UciVal.str "pbr0")]⟩,
          ⟨Sid.named "net2", "interface", [("device", UciVal.str "pbr0")]⟩,
          ⟨Sid.named "pbr0", "device",
            [("type", UciVal.str "bridge"), ("name", UciVal.str "pbr0")]⟩],
         [],
         [⟨Sid.anon 0, "dnsmasq",
           [("notinterface", UciVal.list ["pbr0"])]⟩]⟩).1)
        (Sid.named "pbr0")).isSome = true ∧
      Store.dhcp (removeIntegration "net1" "pbr0" "bridge"
        ⟨[⟨Sid.named "net1", "interface", [("device", UciVal.str "pbr0")]⟩,
          ⟨Sid.named "net2", "interface", [("device", UciVal.str "pbr0")]⟩,
          ⟨Sid.named "pbr0", "device",
            [("type", UciVal.str "bridge"), ("name", UciVal.str "pbr0")]⟩],
         [],
         [⟨Sid.anon 0, "dnsmasq",
           [("notinterface", UciVal.list ["pbr0"])]⟩]⟩).1 =
        [⟨Sid.anon 0, "dnsmasq", [("notinterface", UciVal.list ["pbr0"])]⟩] ∧
      lookupSection (Store.network (removeIntegration "net2" "pbr0" "bridge"
          (removeIntegration "net1" "pbr0" "bridge"
            ⟨[⟨Sid.named "net1", "interface", [("device", UciVal.str "pbr0")]⟩,
              ⟨Sid.named "net2", "interface", [("device", UciVal.str "pbr0")]⟩,
              ⟨Sid.named "pbr0", "device",
                [("type", UciVal.str "bridge"), ("name", UciVal.str "pbr0")]⟩],
             [],
             [⟨Sid.anon 0, "dnsmasq",
               [("notinterface", UciVal.list ["pbr0"])]⟩]⟩).1).1)
        (Sid.named "pbr0") = none ∧
      "pbr0" ∉ normList (uciGet (Store.dhcp
        (removeIntegration "net2" "pbr0" "bridge"
          (removeIntegration "net1" "pbr0" "bridge"
            ⟨[⟨Sid.named "net1", "interface", [("device", UciVal.str "pbr0")]⟩,
              ⟨Sid.named "net2", "interface", [("device", UciVal.str "pbr0")]⟩,
              ⟨Sid.named "pbr0", "device",
                [("type", UciVal.str "bridge"), ("name", UciVal.str "pbr0")]⟩],
             [],
             [⟨Sid.anon 0, "dnsmasq",
               [("notinterface", UciVal.list ["pbr0"])]⟩]⟩).1).1)
        (Sid.anon 0) "notinterface")) := by
  constructor
  · intro networkName deviceName driver0 s hb hex
    obtain ⟨z, hzmem, hzid, hzdev⟩ := hex
    have hcnt : otherIfaceCount networkName deviceName
        (removeIfacePhase networkName s.network) ≠ 0 := by
      have hzin : z ∈ (sectionsOf (removeIfacePhase networkName s.network)
          "interface").filter (fun sec =>
            uciGet (removeIfacePhase networkName s.network) sec.id "device" =
              some (UciVal.str deviceName) &&
            sec.id ≠ Sid.named networkName) :=
        List.mem_filter.mpr ⟨hzmem, by simp [hzdev, hzid]⟩
      have hpos := List.length_pos_of_mem hzin
      rw [otherIfaceCount]
      omega
    unfold removeIntegration
    dsimp only
    unfold removeDevicePhase
    rw [if_pos hb, if_neg hcnt]
    simp
  · refine ⟨?_, ?_, ?_, ?_⟩ <;> decide

/-- Witness for C2: with another interface (`net2`) still bound to `pbr0`,
removing `net1` leaves the device section and the exclusion list alone. -/
theorem C2_removeIntegration_bridge_refcount_witness :
    Store.network (removeIntegration "net1" "pbr0" "bridge"
      ⟨[⟨Sid.named "net2", "interface", [("device", UciVal.str "pbr0")]⟩,
        ⟨Sid.named "pbr0", "device", [("type", UciVal.str "bridge")]⟩],
       [],
       [⟨Sid.anon 0, "dnsmasq", [("notinterface", UciVal.list ["pbr0"])]⟩]⟩).1 =
      removeIfacePhase "net1"
        [⟨Sid.named "net2", "interface", [("device", UciVal.str "pbr0")]⟩,
         ⟨Sid.named "pbr0", "device", [("type", UciVal.str "bridge")]⟩] ∧
    Store.dhcp (removeIntegration "net1" "pbr0" "bridge"
      ⟨[⟨Sid.named "net2", "interface", [("device", UciVal.str "pbr0")]⟩,
        ⟨Sid.named "pbr0", "device", [("type", UciVal.str "bridge")]⟩],
       [],
       [⟨Sid.anon 0, "dnsmasq", [("notinterface", UciVal.list ["pbr0"])]⟩]⟩).1 =
      [⟨Sid.anon 0, "dnsmasq", [("notinterface", UciVal.list ["pbr0"])]⟩] :=
  C2_removeIntegration_bridge_refcount.1 "net1" "pbr0" "bridge"
    ⟨[⟨Sid.named "net2", "interface", [("device", UciVal.str "pbr0")]⟩,
      ⟨Sid.named "pbr0", "device", [("type", UciVal.str "bridge")]⟩],
     [],
     [⟨Sid.anon 0, "dnsmasq", [("notinterface", UciVal.list ["pbr0"])]⟩]⟩
    (by decide)
    ⟨⟨Sid.named "net2", "interface", [("device", UciVal.str "pbr0")]⟩,
      by decide, by decide, by decide⟩

theorem ensureZoneMembership_append_member {zn name : String} {fw : UciDomain}
    {z0 : UciSection} (hz : findZoneByName zn fw = some z0)
    (hmem : name ∉ normList (uciGet fw z0.id "network")) :
    ensureZoneMembership zn name fw =
      uciSet fw z0.id "network"
        (UciVal.list (normList (uciGet fw z0.id "network") ++ [name])) := by
  unfold ensureZoneMembership
  split
  · next heq => rw [heq] at hz; cases hz
  · next z' heq =>
    rw [heq] at hz
    injection hz with hzz
    subst hzz
    dsimp only
    rw [if_neg hmem]

theorem ZoneInv_uciSet_network {fw : UciDomain} (h : ZoneInv fw) (i : Sid)
    {l : List String} (hl : l.Nodup) :
    ZoneInv (uciSet fw i "network" (UciVal.list l)) := by
  intro z hz'
  rw [sectionsOf_uciSet] at hz'
  obtain ⟨z'', hmem, heq⟩ := List.mem_map.mp hz'
  subst heq
  rw [updOpt_preserves_id]
  by_cases hid : z''.id = i
  · have hsome : (lookupSection fw i).isSome := by
      rw [← hid]
      exact lookupSection_isSome_of_mem (mem_sectionsOf.mp hmem).1
    rw [hid, uciGet_uciSet_self hsome]
    simpa [normList] using hl
  · rw [uciGet_uciSet_ne_id hid]
    exact h z'' hmem

theorem ZoneInv_append_notZone {fw : UciDomain} (h : ZoneInv fw)
    {sec : UciSection} (hst : sec.stype ≠ "zone") : ZoneInv (fw ++ [sec]) := by
  intro z hz'
  rw [sectionsOf_append] at hz'
  have hempty : sectionsOf [sec] "zone" = [] := by simp [sectionsOf, hst]
  rw [hempty, List.append_nil] at hz'
  rw [uciGet_of_mem_append (mem_sectionsOf.mp hz').1]
  exact h z hz'

theorem ZoneInv_uciRemove {fw : UciDomain} (h : ZoneInv fw) (i : Sid) :
    ZoneInv (uciRemove fw i) := by
  intro z hz'
  rw [sectionsOf_uciRemove] at hz'
  have hz2 := mem_of_mem_uciRemove hz'
  rw [uciGet_uciRemove_ne hz2.2]
  exact h z hz2.1

theorem ZoneInv_ensureZoneMembership {fw : UciDomain} (h : ZoneInv fw)
    (zn name : String) : ZoneInv (ensureZoneMembership zn name fw) := by
  cases hz : findZoneByName zn fw with
  | none =>
    rw [ensureZoneMembership_created hz]
    intro z hz'
    rw [sectionsOf_append] at hz'
    rcases List.mem_append.mp hz' with hcase | hcase
    · rw [uciGet_of_mem_append (mem_sectionsOf.mp hcase).1]
      exact h z hcase
    · have hzf : z = ⟨Sid.anon (freshAnon fw), "zone",
          [("name", UciVal.str zn), ("input", UciVal.str "DROP"),
           ("output", UciVal.str "ACCEPT"), ("forward", UciVal.str "REJECT"),
           ("network", UciVal.list [name])]⟩ := by
        have := (mem_sectionsOf.mp hcase).1
        simpa using this
      subst hzf
      rw [uciGet, lookupSection_fresh_append]
      simp [getOptVal, normList]
  | some z0 =>
    by_cases hmem : name ∈ normList (uciGet fw z0.id "network")
    · rw [ensureZoneMembership_noop ⟨z0, hz, hmem⟩]
      exact h
    · rw [ensureZoneMembership_append_member hz hmem]
      have hz0zone : z0 ∈ sectionsOf fw "zone" := by
        rw [findZoneByName] at hz
        exact List.mem_of_find?_eq_some hz
      have hnodup : (normList (uciGet fw z0.id "network") ++ [name]).Nodup := by
        rw [List.nodup_append]
        refine ⟨h z0 hz0zone, List.nodup_singleton name, ?_⟩
        intro a ha hb
        rw [List.mem_singleton] at hb
        subst hb
        exact hmem ha
      exact ZoneInv_uciSet_network h z0.id hnodup

theorem ZoneInv_ensureDnsRule {fw : UciDomain} (h : ZoneInv fw)
    (zn : String) : ZoneInv (ensureDnsRule zn fw) := by
  cases hr : findRuleByName ("Allow-" ++ zn ++ "-DNS") fw with
  | some r =>
    rw [ensureDnsRule_noop (by rw [hr]; rfl)]
    exact h
  | none =>
    rw [ensureDnsRule_created hr]
    exact ZoneInv_append_notZone h (by simp)

theorem ZoneInv_removeZonePhase {fw : UciDomain} (h : ZoneInv fw)
    (networkName : String) : ZoneInv (removeZonePhase networkName fw) := by
  unfold removeZonePhase
  split
  · exact h
  · next z0 heq =>
    have hz0zone : z0 ∈ sectionsOf fw "zone" := by
      rw [findMemberZone] at heq
      exact List.mem_of_find?_eq_some heq
    dsimp only
    split
    · exact ZoneInv_uciSet_network h z0.id
        (List.Nodup.filter _ (h z0 hz0zone))
    · split
      · split
        · exact ZoneInv_uciRemove (ZoneInv_uciRemove h z0.id) _
        · exact ZoneInv_uciRemove h z0.id
      · exact ZoneInv_uciSet_network h z0.id
          (List.Nodup.filter _ (h z0 hz0zone))

/-- C9: the at-most-once zone-membership invariant is preserved.  If every
firewall zone's normalised `network` member list is duplicate-free before a
`createIntegration` or `removeIntegration` call, it still is afterwards:
create appends the network name only when absent (and seeds a new zone with
exactly one member), and remove filters the name out (or deletes the zone). -/
theorem C9_zone_membership_at_most_once :
    (∀ (networkName : String) (o : CreateOptions) (s : Store),
      ZoneInv s.firewall →
      ZoneInv (Store.firewall (createIntegration networkName o s).1)) ∧
    (∀ (networkName deviceName driver0 : String) (s : Store),
      ZoneInv s.firewall →
      ZoneInv (Store.firewall (removeIntegration networkName deviceName
        driver0 s).1)) := by
  constructor
  · intro networkName o s h
    unfold createIntegration
    dsimp only
    split <;>
      exact ZoneInv_ensureDnsRule (ZoneInv_ensureZoneMembership h _ _) _
  · intro networkName deviceName driver0 s h
    unfold removeIntegration
    dsimp only
    split <;> exact ZoneInv_removeZonePhase h _

/-- Witness for C9: a concrete store with one shared zone; both operations
keep its member list duplicate-free. -/
theorem C9_zone_membership_at_most_once_witness :
    ZoneInv [⟨Sid.anon 0, "zone",
      [("name", UciVal.str "podman"), ("network", UciVal.list ["net1"])]⟩] ∧
    ZoneInv (Store.firewall (createIntegration "net2"
      ⟨"bridge", "pbr2", "", "10.2.0.0/24", "10.2.0.1", "", "", "podman"⟩
      ⟨[], [⟨Sid.anon 0, "zone",
        [("name", UciVal.str "podman"),
         ("network", UciVal.list ["net1"])]⟩], []⟩).1) ∧
    ZoneInv (Store.firewall (removeIntegration "net1" "pbr1" "bridge"
      ⟨[], [⟨Sid.anon 0, "zone",
        [("name", UciVal.str "podman"),
         ("network", UciVal.list ["net1"])]⟩], []⟩).1) :=
  ⟨by unfold ZoneInv; decide,
   C9_zone_membership_at_most_once.1 "net2"
     ⟨"bridge", "pbr2", "", "10.2.0.0/24", "10.2.0.1", "", "", "podman"⟩
     ⟨[], [⟨Sid.anon 0, "zone",
       [("name", UciVal.str "podman"),
        ("network", UciVal.list ["net1"])]⟩], []⟩ (by unfold ZoneInv; decide),
   C9_zone_membership_at_most_once.2 "net1" "pbr1" "bridge"
     ⟨[], [⟨Sid.anon 0, "zone",
       [("name", UciVal.str "podman"),
        ("network", UciVal.list ["net1"])]⟩], []⟩ (by unfold ZoneInv; decide)⟩

theorem splitOnChar_ne_nil (sep : Char) (l : List Char) :
    splitOnChar sep l ≠ [] := by
  induction l with
  | nil => simp [splitOnChar]
  | cons c rest ih =>
    rw [splitOnChar]
    by_cases h : c = sep
    · simp [h]
    · rw [if_neg h]
      cases hrec : splitOnChar sep rest with
      | nil => simp
      | cons a t => simp

theorem splitOnChar_of_not_mem {sep : Char} {l : List Char} (h : sep ∉ l) :
    splitOnChar sep l = [l] := by
  induction l with
  | nil => rfl
  | cons c rest ih =>
    rw [splitOnChar]
    rw [if_neg (by intro he; exact h (he ▸ List.mem_cons_self c rest)),
      ih (fun hm => h (List.mem_cons_of_mem c hm))]

theorem splitOnChar_append_sep {sep : Char} {l1 : List Char} (h : sep ∉ l1)
    (l2 : List Char) :
    splitOnChar sep (l1 ++ sep :: l2) = l1 :: splitOnChar sep l2 := by
  induction l1 with
  | nil =>
    rw [List.nil_append, splitOnChar]
    simp
  | cons c rest ih =>
    rw [List.cons_append, splitOnChar]
    rw [if_neg (by intro he; exact h (he ▸ List.mem_cons_self c rest)),
      ih (fun hm => h (List.mem_cons_of_mem c hm))]

theorem headD_splitOnChar_append {sep : Char} {l1 : List Char} (h : sep ∉ l1)
    (l2 : List Char) :
    (splitOnChar sep (l1 ++ l2)).headD [] =
      l1 ++ (splitOnChar sep l2).headD [] := by
  induction l1 with
  | nil => rfl
  | cons c rest ih =>
    rw [List.cons_append, splitOnChar]
    rw [if_neg (by intro he; exact h (he ▸ List.mem_cons_self c rest))]
    have hrec := ih (fun hm => h (List.mem_cons_of_mem c hm))
    cases hs : splitOnChar sep (rest ++ l2) with
    | nil => exact absurd hs (splitOnChar_ne_nil sep (rest ++ l2))
    | cons a t =>
      rw [hs] at hrec
      simp only [List.headD_cons] at hrec
      simp [hrec]

theorem not_mem_headD_splitOnChar (sep : Char) (l : List Char) :
    sep ∉ (splitOnChar sep l).headD [] := by
  induction l with
  | nil => simp [splitOnChar]
  | cons c rest ih =>
    rw [splitOnChar]
    by_cases h : c = sep
    · simp [h]
    · rw [if_neg h]
      cases hs : splitOnChar sep rest with
      | nil => exact absurd hs (splitOnChar_ne_nil sep rest)
      | cons a t =>
        rw [hs] at ih
        simp only [List.headD_cons] at ih
        simp only [List.headD_cons, List.mem_cons]
        rintro (he | hm)
        · exact h he.symm
        · exact ih hm

theorem takeBCC_colon_colon (rest : List Char) :
    takeBeforeColonColon (':' :: ':' :: rest) = [] := by
  rw [takeBeforeColonColon]
  simp

theorem takeBCC_seg {h1 : List Char} (hh : ':' ∉ h1) {c : Char}
    (hc : c ≠ ':') (m : List Char) :
    takeBeforeColonColon (h1 ++ ':' :: c :: m) =
      h1 ++ ':' :: takeBeforeColonColon (c :: m) := by
  induction h1 with
  | nil =>
    rw [List.nil_append, takeBeforeColonColon]
    rw [if_neg (by intro hand; exact hc hand.2)]
    rfl
  | cons a rest ih =>
    have ha : a ≠ ':' := by
      intro he; exact hh (he ▸ List.mem_cons_self a rest)
    have hrest : ':' ∉ rest := fun hm => hh (List.mem_cons_of_mem a hm)
    rw [List.cons_append]
    cases hrs : rest ++ ':' :: c :: m with
    | nil => exact absurd hrs (by simp)
    | cons b t =>
      rw [takeBeforeColonColon]
      rw [if_neg (by intro hand; exact ha hand.1)]
      rw [← hrs, ih hrest]
      rfl

theorem takeBCC_last {h3 : List Char} (hh : ':' ∉ h3) (t : List Char) :
    takeBeforeColonColon (h3 ++ ':' :: ':' :: t) = h3 := by
  induction h3 with
  | nil => exact takeBCC_colon_colon t
  | cons a rest ih =>
    have ha : a ≠ ':' := by
      intro he; exact hh (he ▸ List.mem_cons_self a rest)
    have hrest : ':' ∉ rest := fun hm => hh (List.mem_cons_of_mem a hm)
    rw [List.cons_append]
    cases hrs : rest ++ ':' :: ':' :: t with
    | nil => exact absurd hrs (by simp)
    | cons b t2 =>
      rw [takeBeforeColonColon]
      rw [if_neg (by intro hand; exact ha hand.1)]
      rw [← hrs, ih hrest]

theorem hexCharVal_digitChar {d : Nat} (h : d < 16) :
    hexCharVal (Nat.digitChar d) = d := by
  interval_cases d <;> decide

theorem parseHexChars_replicate_zero (k : Nat) (l : List Char) :
    parseHexChars (List.replicate k '0' ++ l) = parseHexChars l := by
  induction k with
  | zero => rfl
  | succ k ih =>
    rw [List.replicate_succ, List.cons_append, parseHexChars, List.foldl_cons]
    have h0 : 16 * 0 + hexCharVal '0' = 0 := by decide
    rw [h0]
    exact ih

theorem hexDigitsAux_eq_digits :
    ∀ (n fuel : Nat), n ≤ fuel →
      hexDigitsAux fuel n = (Nat.digits 16 n).map Nat.digitChar := by
  intro n
  induction n using Nat.strong_induction_on with
  | _ n ih =>
    intro fuel hle
    match n, fuel with
    | 0, _ => simp [hexDigitsAux]
    | m + 1, 0 => omega
    | m + 1, f + 1 =>
      rw [hexDigitsAux]
      rw [Nat.digits_def' (by norm_num : 1 < 16) (Nat.succ_pos m),
        List.map_cons]
      congr 1
      have hdivlt : (m + 1) / 16 < m + 1 :=
        Nat.div_lt_self (Nat.succ_pos m) (by norm_num)
      exact ih ((m + 1) / 16) hdivlt f (by omega)

theorem parseHexChars_jsHexString (n : Nat) :
    parseHexChars (jsHexString n).data = n := by
  by_cases h : n = 0
  · subst h
    decide
  · rw [jsHexString, if_neg h]
    show parseHexChars ((hexDigitsAux n n).reverse) = n
    rw [hexDigitsAux_eq_digits n n (le_refl n)]
    rw [parseHexChars, List.foldl_reverse, List.foldr_map]
    have hlt : ∀ d ∈ Nat.digits 16 n, d < 16 :=
      fun d hd => Nat.digits_lt_base (by norm_num) hd
    have hfold : ∀ (ds : List Nat), (∀ d ∈ ds, d < 16) →
        List.foldr (fun x y => 16 * y + hexCharVal (Nat.digitChar x)) 0 ds =
          Nat.ofDigits 16 ds := by
      intro ds
      induction ds with
      | nil => intro _; rfl
      | cons d tl ih =>
        intro hds
        rw [List.foldr_cons, ih (fun x hx => hds x (List.mem_cons_of_mem d hx)),
          Nat.ofDigits_cons, hexCharVal_digitChar (hds d (List.mem_cons_self d tl))]
        ring
    rw [hfold (Nat.digits 16 n) hlt, Nat.ofDigits_digits]

theorem padStart4_data (s : String) :
    (padStart4 s).data = List.replicate (4 - s.length) '0' ++ s.data := by
  rw [padStart4, String.data_append]

theorem padStart4_jsHexString_injective {a b : Nat}
    (h : padStart4 (jsHexString a) = padStart4 (jsHexString b)) : a = b := by
  have ha : parseHexChars (padStart4 (jsHexString a)).data = a := by
    rw [padStart4_data, parseHexChars_replicate_zero, parseHexChars_jsHexString]
  have hb : parseHexChars (padStart4 (jsHexString b)).data = b := by
    rw [padStart4_data, parseHexChars_replicate_zero, parseHexChars_jsHexString]
  rw [← ha, ← hb, h]

theorem shiftOr_eq_mul_add (a : Nat) {b : Nat} (h : b < 256) :
    (a <<< 8) ||| b = a * 256 + b := by
  have h2 : b < 2 ^ 8 := by
    rw [show (2 : Nat) ^ 8 = 256 from by norm_num]
    exact h
  rw [Nat.shiftLeft_eq]
  show a * 2 ^ 8 ||| b = a * 2 ^ 8 + b
  apply Nat.eq_of_testBit_eq
  intro j
  rw [Nat.testBit_lor, mul_comm a (2 ^ 8),
    Nat.testBit_mul_pow_two_add a h2 j, Nat.testBit_mul_pow_two]
  by_cases hj : j < 8
  · simp [hj, Nat.lt_asymm]
  · simp only [if_neg hj]
    have hb : b.testBit j = false := Nat.testBit_lt_two_pow
      (lt_of_lt_of_le h2 (Nat.pow_le_pow_right (by norm_num) (by omega)))
    rw [hb]
    simp [ge_iff_le, Nat.not_lt.mp hj]

theorem deriveUla_eval (O0 O1 O2 O3 P H1 H2 H3 T : String)
    (hS0 : '/' ∉ O0.data) (hS1 : '/' ∉ O1.data) (hS2 : '/' ∉ O2.data)
    (hS3 : '/' ∉ O3.data)
    (hO0 : '.' ∉ O0.data) (hO1 : '.' ∉ O1.data) (hO2 : '.' ∉ O2.data)
    (hO3 : '.' ∉ O3.data)
    (hn2 : H2.data ≠ []) (hn3 : H3.data ≠ [])
    (hc1 : ':' ∉ H1.data) (hc2 : ':' ∉ H2.data) (hc3 : ':' ∉ H3.data)
    (hs1 : '/' ∉ H1.data) (hs2 : '/' ∉ H2.data) (hs3 : '/' ∉ H3.data)
    (hd : jsNumberNat O3 ≤ 255) :
    deriveUlaFromIpv4 (O0 ++ "." ++ O1 ++ "." ++ O2 ++ "." ++ O3 ++ "/" ++ P)
      (H1 ++ ":" ++ H2 ++ ":" ++ H3 ++ "::" ++ T) =
    ⟨H1 ++ ":" ++ H2 ++ ":" ++ H3 ++ ":" ++
        padStart4 (jsHexString (jsNumberNat O2 * 256 + jsNumberNat O3)) ++
        "::" ++ "/64",
      H1 ++ ":" ++ H2 ++ ":" ++ H3 ++ ":" ++
        padStart4 (jsHexString (jsNumberNat O2 * 256 + jsNumberNat O3)) ++
        "::" ++ "1"⟩ := by
  have hipv4 : (O0 ++ "." ++ O1 ++ "." ++ O2 ++ "." ++ O3 ++ "/" ++ P).data =
      (O0.data ++ '.' :: O1.data ++ '.' :: O2.data ++ '.' :: O3.data) ++
        '/' :: P.data := by
    simp [String.data_append]
  have hslashA : '/' ∉ O0.data ++ '.' :: O1.data ++ '.' :: O2.data ++
      '.' :: O3.data := by
    simp only [List.mem_append, List.mem_cons]
    push_neg
    exact ⟨⟨⟨hS0, by decide, hS1⟩, by decide, hS2⟩, by decide, hS3⟩
  have hipv4Addr : (splitOnChar '/'
      (O0 ++ "." ++ O1 ++ "." ++ O2 ++ "." ++ O3 ++ "/" ++ P).data).headD [] =
      O0.data ++ '.' :: O1.data ++ '.' :: O2.data ++ '.' :: O3.data := by
    rw [hipv4, splitOnChar_append_sep hslashA]
    rfl
  have hoct : splitOnChar '.'
      (O0.data ++ '.' :: O1.data ++ '.' :: O2.data ++ '.' :: O3.data) =
      [O0.data, O1.data, O2.data, O3.data] := by
    rw [show O0.data ++ '.' :: O1.data ++ '.' :: O2.data ++ '.' :: O3.data =
        O0.data ++ '.' :: (O1.data ++ '.' :: (O2.data ++ '.' :: O3.data)) by
      simp [List.append_assoc]]
    rw [splitOnChar_append_sep hO0, splitOnChar_append_sep hO1,
      splitOnChar_append_sep hO2, splitOnChar_of_not_mem hO3]
  obtain ⟨c2, m2, hm2⟩ : ∃ c m, H2.data = c :: m := by
    cases hx : H2.data with
    | nil => exact absurd hx hn2
    | cons a l => exact ⟨a, l, rfl⟩
  obtain ⟨c3, m3, hm3⟩ : ∃ c m, H3.data = c :: m := by
    cases hx : H3.data with
    | nil => exact absurd hx hn3
    | cons a l => exact ⟨a, l, rfl⟩
  have hc2' : c2 ≠ ':' := by
    intro he
    exact hc2 (by rw [hm2, he]; exact List.mem_cons_self _ _)
  have hc3' : c3 ≠ ':' := by
    intro he
    exact hc3 (by rw [hm3, he]; exact List.mem_cons_self _ _)
  have hula : (H1 ++ ":" ++ H2 ++ ":" ++ H3 ++ "::" ++ T).data =
      (H1.data ++ ':' :: H2.data ++ ':' :: H3.data ++ [':', ':']) ++
        T.data := by
    simp [String.data_append]
  have hslashU : '/' ∉ H1.data ++ ':' :: H2.data ++ ':' :: H3.data ++
      [':', ':'] := by
    simp only [List.mem_append, List.mem_cons]
    push_neg
    refine ⟨⟨⟨hs1, by decide, hs2⟩, by decide, hs3⟩, ?_⟩
    decide
  have hulaAddr : (splitOnChar '/'
      (H1 ++ ":" ++ H2 ++ ":" ++ H3 ++ "::" ++ T).data).headD [] =
      (H1.data ++ ':' :: H2.data ++ ':' :: H3.data ++ [':', ':']) ++
        (splitOnChar '/' T.data).headD [] := by
    rw [hula, headD_splitOnChar_append hslashU]
  have hpart0 : takeBeforeColonColon
      ((H1.data ++ ':' :: H2.data ++ ':' :: H3.data ++ [':', ':']) ++
        (splitOnChar '/' T.data).headD []) =
      H1.data ++ ':' :: H2.data ++ ':' :: H3.data := by
    rw [show (H1.data ++ ':' :: H2.data ++ ':' :: H3.data ++ [':', ':']) ++
        (splitOnChar '/' T.data).headD [] =
        H1.data ++ ':' :: c2 :: (m2 ++ ':' ::
          (H3.data ++ ':' :: ':' :: (splitOnChar '/' T.data).headD [])) by
      rw [hm2]
      simp [List.append_assoc]]
    rw [takeBCC_seg hc1 hc2']
    rw [show (c2 :: (m2 ++ ':' ::
        (H3.data ++ ':' :: ':' :: (splitOnChar '/' T.data).headD []))) =
        H2.data ++ ':' :: c3 :: (m3 ++ ':' :: ':' ::
          (splitOnChar '/' T.data).headD []) by
      rw [hm2, hm3]
      simp [List.append_assoc]]
    rw [takeBCC_seg hc2 hc3']
    rw [show (c3 :: (m3 ++ ':' :: ':' :: (splitOnChar '/' T.data).headD [])) =
        H3.data ++ ':' :: ':' :: (splitOnChar '/' T.data).headD [] by
      rw [hm3]
      simp]
    rw [takeBCC_last hc3]
    simp [List.append_assoc]
  have hhex : splitOnChar ':' (H1.data ++ ':' :: H2.data ++ ':' :: H3.data) =
      [H1.data, H2.data, H3.data] := by
    rw [show H1.data ++ ':' :: H2.data ++ ':' :: H3.data =
        H1.data ++ ':' :: (H2.data ++ ':' :: H3.data) by
      simp [List.append_assoc]]
    rw [splitOnChar_append_sep hc1, splitOnChar_append_sep hc2,
      splitOnChar_of_not_mem hc3]
  unfold deriveUlaFromIpv4
  simp only [hipv4Addr, hulaAddr]
  simp only [hoct, hpart0, hhex]
  rw [show List.map (fun o => jsNumberNat (String.mk o))
      [O0.data, O1.data, O2.data, O3.data] =
      [jsNumberNat O0, jsNumberNat O1, jsNumberNat O2, jsNumberNat O3]
    from rfl]
  rw [show ([jsNumberNat O0, jsNumberNat O1, jsNumberNat O2,
      jsNumberNat O3].getD 2 0) = jsNumberNat O2 from rfl]
  rw [show ([jsNumberNat O0, jsNumberNat O1, jsNumberNat O2,
      jsNumberNat O3].getD 3 0) = jsNumberNat O3 from rfl]
  rw [shiftOr_eq_mul_add _ (by omega)]
  have hne : ([H1.data, H2.data, H3.data] : List (List Char)) ≠ [[]] := by
    simp
  rw [if_neg hne]
  have hjoin : List.intercalate [':'] (([H1.data, H2.data, H3.data] ++
      List.replicate (3 - ([H1.data, H2.data, H3.data] : List (List Char)).length)
        ['0']).take 3) = H1.data ++ ':' :: H2.data ++ ':' :: H3.data := by
    simp [List.intercalate, List.intersperse]
  rw [hjoin]
  have : (String.mk (H1.data ++ ':' :: H2.data ++ ':' :: H3.data)) =
      H1 ++ ":" ++ H2 ++ ":" ++ H3 := by
    apply String.ext
    simp [String.data_append]
  rw [this]

theorem string_append_left_cancel {a b c : String} (h : a ++ b = a ++ c) :
    b = c := by
  apply String.ext
  have hd := congrArg String.data h
  rw [String.data_append, String.data_append] at hd
  exact List.append_cancel_left hd

theorem string_append_right_cancel {a b c : String} (h : a ++ c = b ++ c) :
    a = b := by
  apply String.ext
  have hd := congrArg String.data h
  rw [String.data_append, String.data_append] at hd
  exact List.append_cancel_right hd

/-- C7: the ULA deriver is a deterministic pure function.  On every IPv4 CIDR
`O0.O1.O2.O3/P` (octet strings free of `.` and `/`) and every ULA prefix
`H1:H2:H3::T` (non-empty hextet strings free of `:` and `/`) with octet
values `c = O2`, `d = O3` at most 255, it returns the `/64` subnet obtained
by packing `c * 256 + d` as a 4-padded lowercase hex value spliced as the
fourth hextet after the prefix's first three hextets, ending in `::`, and a
gateway equal to that subnet address followed by `"1"`; calling it twice on
the same input yields the identical output; and two packed octet pairs that
differ produce different subnet strings. -/
theorem C7_deriveUla_formula_det_inj :
    (∀ (O0 O1 O2 O3 P H1 H2 H3 T : String),
      '/' ∉ O0.data → '/' ∉ O1.data → '/' ∉ O2.data → '/' ∉ O3.data →
      '.' ∉ O0.data → '.' ∉ O1.data → '.' ∉ O2.data → '.' ∉ O3.data →
      H2.data ≠ [] → H3.data ≠ [] →
      ':' ∉ H1.data → ':' ∉ H2.data → ':' ∉ H3.data →
      '/' ∉ H1.data → '/' ∉ H2.data → '/' ∉ H3.data →
      jsNumberNat O3 ≤ 255 →
      deriveUlaFromIpv4 (O0 ++ "." ++ O1 ++ "." ++ O2 ++ "." ++ O3 ++ "/" ++ P)
        (H1 ++ ":" ++ H2 ++ ":" ++ H3 ++ "::" ++ T) =
        ⟨H1 ++ ":" ++ H2 ++ ":" ++ H3 ++ ":" ++
            padStart4 (jsHexString (jsNumberNat O2 * 256 + jsNumberNat O3)) ++
            "::" ++ "/64",
          H1 ++ ":" ++ H2 ++ ":" ++ H3 ++ ":" ++
            padStart4 (jsHexString (jsNumberNat O2 * 256 + jsNumberNat O3)) ++
            "::" ++ "1"⟩) ∧
    (∀ (ipv4 ulaPfx : String),
      deriveUlaFromIpv4 ipv4 ulaPfx = deriveUlaFromIpv4 ipv4 ulaPfx) ∧
    (∀ (H1 H2 H3 : String) (c d c' d' : Nat), d ≤ 255 → d' ≤ 255 →
      ¬(c = c' ∧ d = d') →
      H1 ++ ":" ++ H2 ++ ":" ++ H3 ++ ":" ++
          padStart4 (jsHexString (c * 256 + d)) ++ "::" ++ "/64" ≠
        H1 ++ ":" ++ H2 ++ ":" ++ H3 ++ ":" ++
          padStart4 (jsHexString (c' * 256 + d')) ++ "::" ++ "/64") := by
  refine ⟨?_, ?_, ?_⟩
  · intro O0 O1 O2 O3 P H1 H2 H3 T hS0 hS1 hS2 hS3 hO0 hO1 hO2 hO3 hn2 hn3
      hc1 hc2 hc3 hs1 hs2 hs3 hd
    exact deriveUla_eval O0 O1 O2 O3 P H1 H2 H3 T hS0 hS1 hS2 hS3 hO0 hO1
      hO2 hO3 hn2 hn3 hc1 hc2 hc3 hs1 hs2 hs3 hd
  · intro ipv4 ulaPfx
    rfl
  · intro H1 H2 H3 c d c' d' hdle hdle' hne heq
    have h1 := string_append_right_cancel heq
    have h2 := string_append_right_cancel h1
    have h3 := string_append_left_cancel h2
    have h4 := padStart4_jsHexString_injective h3
    apply hne
    omega

/-- Witness for C7: the spec's example input, plus a concrete subnet-id
collision-freeness instance. -/
theorem C7_deriveUla_formula_det_inj_witness :
    deriveUlaFromIpv4 "10.20.3.0/24" "fd00:abcd:ef01::/48" =
      ⟨"fd00:abcd:ef01:0300::/64", "fd00:abcd:ef01:0300::1"⟩ ∧
    "fd00" ++ ":" ++ "abcd" ++ ":" ++ "ef01" ++ ":" ++
        padStart4 (jsHexString (3 * 256 + 0)) ++ "::" ++ "/64" ≠
      "fd00" ++ ":" ++ "abcd" ++ ":" ++ "ef01" ++ ":" ++
        padStart4 (jsHexString (3 * 256 + 1)) ++ "::" ++ "/64" := by
  constructor
  · rw [show ("10.20.3.0/24" : String) =
        "10" ++ "." ++ "20" ++ "." ++ "3" ++ "." ++ "0" ++ "/" ++ "24"
      from rfl]
    rw [show ("fd00:abcd:ef01::/48" : String) =
        "fd00" ++ ":" ++ "abcd" ++ ":" ++ "ef01" ++ "::" ++ "/48" from rfl]
    have h := C7_deriveUla_formula_det_inj.1 "10" "20" "3" "0" "24"
      "fd00" "abcd" "ef01" "/48"
      (by decide) (by decide) (by decide) (by decide) (by decide) (by decide)
      (by decide) (by decide) (by decide) (by decide) (by decide) (by decide)
      (by decide) (by decide) (by decide) (by decide) (by decide)
    exact h.trans (by decide)
  · exact C7_deriveUla_formula_det_inj.2.2 "fd00" "abcd" "ef01" 3 0 3 1
      (by decide) (by decide) (by decide)
